import Mathlib

/-!
# bufrex: a time-expiring key/value store with an optional Redis second level

Shallow embedding of `store.go` and `redis.go`.

* `interface{}` values are `Iface P` over a payload type `P`; a `Value` struct that is
  itself handed over as an `interface{}` is `Iface.boxed`.
* `time.Now().UnixNano()` is an explicit argument `now` of every operation that reads the
  clock (each of `Put`, `Set`, `Get`, `Delete` reads it exactly once; the sweep of
  `DeleteExpired` is taken at one reading).  `int64` arithmetic wraps (`wrap64`).
* `sync.RWMutex` is explicit state; an acquisition that can never be granted in a
  sequential run ends the call with `Outcome.blocked`, a Go panic with `Outcome.panicked`.
* The go-redis client and the server behind it are a parameter (`Client R`, state `R`), and
  so are `redis.NewClient` and the reply of the probe `Ping` (`Dialer O R`).
* The eviction callback is observed through the trace `fired` of its invocations.
* The goroutine of `Run` is a step function over the events its `select` receives (`Event`),
  with the state of the loop (`Loop`) kept beside the store (`Janitor`).
-/

namespace Bufrex

variable {P R : Type}

/-! ## Constants and values -/

/-- Constant `DefaultExpiry` of store.go. -/
def DefaultExpiry : Int := 0

/-- Constant `ExpiryInfinity` of store.go. -/
def ExpiryInfinity : Int := -1

/-- A Go `interface{}`: `nil`, a caller payload, or a `Value` struct boxed as an interface. -/
inductive Iface (P : Type) where
  | nil : Iface P
  | obj (p : P) : Iface P
  | boxed (expiry : Int) (Object : Iface P) : Iface P
  deriving DecidableEq

/-- The struct `Value` of store.go. -/
structure Value (P : Type) where
  expiry : Int
  Object : Iface P
  deriving DecidableEq

/-- A `Value` struct converted to `interface{}` (what Go does when a `Value` is passed where
an `interface{}` is expected). -/
def Value.toIface (v : Value P) : Iface P := Iface.boxed v.expiry v.Object

/-- The entry map `map[string]Value`: keys are unique by construction. -/
abbrev Cache (P : Type) := AList (fun _ : String => Value P)

/-- Go's `len(m)`. -/
def Cache.len (c : Cache P) : Nat := c.entries.length

/-! ## Clock and int64 arithmetic -/

/-- Two's-complement wrap of an integer into the `int64` range. -/
def wrap64 (x : Int) : Int := (x + 2 ^ 63) % 2 ^ 64 - 2 ^ 63

/-- The value of `time.Now().Add(d).UnixNano()` when the clock reads `now`. -/
def addUnixNano (now d : Int) : Int := wrap64 (now + d)

/-- Function `hasExpired` of store.go, the clock reading made explicit. -/
def hasExpired (now : Int) (expires : Int) : Bool :=
  if expires = ExpiryInfinity then false
  else decide (now > expires)

/-! ## sync.RWMutex -/

/-- State of a `sync.RWMutex`: the number of read locks held and whether the write lock is
held. -/
structure RWMutex where
  readers : Nat
  writer : Bool
  deriving DecidableEq

/-- A mutex nobody holds. -/
def RWMutex.free : RWMutex := ⟨0, false⟩

/-! ## Outcomes of a call -/

/-- How a call ends: it returns `val` in state `st`, it panics in state `st`, or it waits
forever for the mutex in state `st`. -/
inductive Outcome (σ α : Type) where
  | ret (val : α) (st : σ) : Outcome σ α
  | panicked (st : σ) : Outcome σ α
  | blocked (st : σ) : Outcome σ α

/-- The state in which the call ended. -/
def Outcome.state {σ α : Type} : Outcome σ α → σ
  | .ret _ s => s
  | .panicked s => s
  | .blocked s => s

/-- The returned value, if the call returned. -/
def Outcome.value? {σ α : Type} : Outcome σ α → Option α
  | .ret a _ => some a
  | .panicked _ => none
  | .blocked _ => none

/-- Whether the call returned normally. -/
def Outcome.returned {σ α : Type} : Outcome σ α → Bool
  | .ret _ _ => true
  | .panicked _ => false
  | .blocked _ => false

/-- Whether the call panicked. -/
def Outcome.isPanicked {σ α : Type} : Outcome σ α → Bool
  | .ret _ _ => false
  | .panicked _ => true
  | .blocked _ => false

/-- Whether the call is stuck on the mutex. -/
def Outcome.isBlocked {σ α : Type} : Outcome σ α → Bool
  | .ret _ _ => false
  | .panicked _ => false
  | .blocked _ => true

/-- A stateful call over state `σ`. -/
def Op (σ α : Type) : Type := σ → Outcome σ α

/-- Sequencing of calls: a panic or a block ends the sequence. -/
def Op.bind {σ α β : Type} (m : Op σ α) (f : α → Op σ β) : Op σ β := fun s =>
  match m s with
  | .ret a s1 => f a s1
  | .panicked s1 => .panicked s1
  | .blocked s1 => .blocked s1

instance {σ : Type} : Monad (Op σ) where
  pure a := fun s => .ret a s
  bind := Op.bind

/-! ## The Redis adapter (redis.go) -/

/-- The error of a go-redis reply: `redis.Nil` (key not found) or any other error. -/
inductive RedisErr where
  | Nil : RedisErr
  | other : RedisErr
  deriving DecidableEq

/-- The go-redis client together with the server it talks to, over a server state `R`:
the three commands redis.go issues. `Get` yields the reply of `.Result()`, a string and an
optional error; the reply of `Set` is never inspected by redis.go; `Del` yields the count. -/
structure Client (R : Type) where
  Get : R → String → R × String × Option RedisErr
  Set : R → String → String → Int → R
  Del : R → String → R × Int

/-- The struct `RedisAdapter` of redis.go; `conn` is the state reached through `client`. -/
structure RedisAdapter (P R : Type) where
  client : Client R
  conn : R
  onDecode : String → String → Except String (Iface P)
  onEncode : String → Iface P → Except String String

/-- Method `SetToRedis`: `Except.error` is the panic raised when the encoder fails. -/
def RedisAdapter.SetToRedis (redix : RedisAdapter P R) (key : String) (value : Iface P)
    (expiry : Int) : Except String (RedisAdapter P R) :=
  match redix.onEncode key value with
  | .ok w => .ok { redix with conn := redix.client.Set redix.conn key w expiry }
  | .error err => .error err

/-- Method `GetFromRedis`: `Except.error` is the panic raised when the decoder fails. -/
def RedisAdapter.GetFromRedis (redix : RedisAdapter P R) (key : String) :
    Except String ((Iface P × Bool) × RedisAdapter P R) :=
  match redix.client.Get redix.conn key with
  | (conn1, value, err) =>
    if err = some RedisErr.Nil then .ok ((Iface.nil, false), { redix with conn := conn1 })
    else
      match redix.onDecode key value with
      | .ok o => .ok ((o, true), { redix with conn := conn1 })
      | .error e => .error e

/-- Method `DeleteFromRedis`. -/
def RedisAdapter.DeleteFromRedis (redix : RedisAdapter P R) (key : String) :
    Bool × RedisAdapter P R :=
  match redix.client.Del redix.conn key with
  | (conn1, count) => (decide (count = 1), { redix with conn := conn1 })

/-! ## The store (store.go) -/

/-- The struct `Store` of store.go. `onDeleted` tells whether a callback is registered
(non-nil); `fired` lists the invocations of the callback, oldest first. -/
structure Store (P R : Type) where
  defaultExpiration : Int
  cache : Cache P
  mutex : RWMutex
  onDeleted : Bool
  redis : Option (RedisAdapter P R)
  fired : List (String × Iface P)

namespace Store

/-- The store built by `New` (the janitor goroutine apart). -/
def New (expiry : Int) : Store P R :=
  { defaultExpiration := expiry, cache := ∅, mutex := RWMutex.free, onDeleted := false,
    redis := none, fired := [] }

/-- Method `OnDelete`: registers the callback. -/
def OnDelete (store : Store P R) : Store P R := { store with onDeleted := true }

/-- Method `adapterExists`. -/
def adapterExists (store : Store P R) : Bool := store.redis.isSome

/-- Method `getUnix`, the clock reading made explicit. -/
def getUnix (store : Store P R) (now : Int) (duration : Int) : Int :=
  if duration = DefaultExpiry then addUnixNano now store.defaultExpiration
  else if duration = ExpiryInfinity then duration
  else addUnixNano now duration

/-- Primitive `store.mutex.RLock()`: waits while a writer holds the mutex. -/
def RLock : Op (Store P R) Unit := fun s =>
  if s.mutex.writer then .blocked s
  else .ret () { s with mutex := { s.mutex with readers := s.mutex.readers + 1 } }

/-- Primitive `store.mutex.RUnlock()`: fatal when no read lock is held. -/
def RUnlock : Op (Store P R) Unit := fun s =>
  if s.mutex.readers = 0 then .panicked s
  else .ret () { s with mutex := { s.mutex with readers := s.mutex.readers - 1 } }

/-- Primitive `store.mutex.Lock()`: waits while any lock is held. -/
def Lock : Op (Store P R) Unit := fun s =>
  if s.mutex.writer || decide (s.mutex.readers ≠ 0) then .blocked s
  else .ret () { s with mutex := { s.mutex with writer := true } }

/-- Primitive `store.mutex.Unlock()`: fatal when the write lock is not held. -/
def Unlock : Op (Store P R) Unit := fun s =>
  if s.mutex.writer then .ret () { s with mutex := { s.mutex with writer := false } }
  else .panicked s

/-- Reads the fields of the store. -/
def getStore : Op (Store P R) (Store P R) := fun s => .ret s s

/-- The statement `store.cache[key] = v`. -/
def assign (key : String) (v : Value P) : Op (Store P R) Unit := fun s =>
  .ret () { s with cache := s.cache.insert key v }

/-- Replaces the entry map by the one a loop over it has produced. -/
def setCache (c : Cache P) : Op (Store P R) Unit := fun s =>
  .ret () { s with cache := c }

/-- The statement `delete(store.cache, key)`. -/
def remove (key : String) : Op (Store P R) Unit := fun s =>
  .ret () { s with cache := s.cache.erase key }

/-- The statement `if store.onDeleted != nil { store.onDeleted(key, arg) }`. -/
def notify (key : String) (arg : Iface P) : Op (Store P R) Unit := fun s =>
  if s.onDeleted then .ret () { s with fired := s.fired ++ [(key, arg)] }
  else .ret () s

/-- The call `store.redis.SetToRedis(key, value, expires)` on the bound adapter. -/
def redisSet (key : String) (value : Iface P) (expires : Int) : Op (Store P R) Unit := fun s =>
  match s.redis with
  | none => .panicked s
  | some redix =>
    match redix.SetToRedis key value expires with
    | .ok redix1 => .ret () { s with redis := some redix1 }
    | .error _ => .panicked s

/-- The call `store.redis.GetFromRedis(key)` on the bound adapter. -/
def redisGet (key : String) : Op (Store P R) (Iface P × Bool) := fun s =>
  match s.redis with
  | none => .panicked s
  | some redix =>
    match redix.GetFromRedis key with
    | .ok (res, redix1) => .ret res { s with redis := some redix1 }
    | .error _ => .panicked s

/-- The call `store.redis.DeleteFromRedis(key)` on the bound adapter. -/
def redisDel (key : String) : Op (Store P R) Bool := fun s =>
  match s.redis with
  | none => .panicked s
  | some redix =>
    match redix.DeleteFromRedis key with
    | (b, redix1) => .ret b { s with redis := some redix1 }

/-- Method `Put`. -/
def Put (key : String) (value : Iface P) (expires : Int) (now : Int) : Op (Store P R) Unit := do
  Lock
  let store ← getStore
  assign key { expiry := store.getUnix now expires, Object := value }
  Unlock
  let store ← getStore
  if store.adapterExists then
    redisSet key value expires
  return ()

/-- Method `Set`. On the `found` branch the method returns without `RUnlock`. -/
def Set (key : String) (value : Iface P) (expires : Int) (now : Int) : Op (Store P R) Bool := do
  RLock
  let store ← getStore
  match store.cache.lookup key with
  | some _ => return false
  | none =>
    RUnlock
    Put key value expires now
    return true

/-- Method `putFromPersistence`. -/
def putFromPersistence (key : String) (value : Iface P) (expires : Int) (now : Int) :
    Op (Store P R) Unit := do
  Lock
  let store ← getStore
  assign key { expiry := store.getUnix now expires, Object := value }
  Unlock
  return ()

/-- Method `Get`. -/
def Get (key : String) (now : Int) : Op (Store P R) (Iface P × Bool) := do
  RLock
  let store ← getStore
  let entry := store.cache.lookup key
  RUnlock
  match entry with
  | none =>
    if store.adapterExists then
      let (value, found) ← redisGet key
      if found then
        putFromPersistence key value DefaultExpiry now
        return (value, true)
      else
        return (Iface.nil, false)
    else
      return (Iface.nil, false)
  | some value =>
    if hasExpired now value.expiry then
      remove key
      notify key value.Object
      return (Iface.nil, false)
    else
      return (value.Object, true)

/-- Method `Delete`. -/
def Delete (key : String) (now : Int) : Op (Store P R) Unit := do
  let (value, found) ← Get key now
  if found then
    Lock
    remove key
    Unlock
    let store ← getStore
    if store.adapterExists then
      let _ ← redisDel key
    notify key value
  return ()

/-- The first loop of `DeleteExpired`, over the entries `es` still to visit: an expired
entry is deleted from the map `c` and recorded in `expired_store`. -/
def sweep (now : Int) : List (Sigma fun _ : String => Value P) → Cache P → Cache P →
    Cache P × Cache P
  | [], c, expired_store => (c, expired_store)
  | ⟨key, value⟩ :: es, c, expired_store =>
    if hasExpired now value.expiry then
      sweep now es (c.erase key) (expired_store.insert key value)
    else sweep now es c expired_store

/-- The second loop of `DeleteExpired`: the callback is handed the `Value` struct itself. -/
def notifyAll : List (Sigma fun _ : String => Value P) → Op (Store P R) Unit
  | [] => pure ()
  | ⟨key, value⟩ :: es => do
    notify key value.toIface
    notifyAll es

/-- Method `DeleteExpired`. -/
def DeleteExpired (now : Int) : Op (Store P R) Unit := do
  Lock
  let store ← getStore
  let (c, expired_store) := sweep now store.cache.entries store.cache ∅
  setCache c
  Unlock
  notifyAll expired_store.entries

end Store

/-! ## Binding the adapter (redis.go `SetupRedis`, store.go `ConfigureAdapter`) -/

/-- The part of go-redis that `SetupRedis` uses, over option values `O` (the values a
non-nil `*redis.Options` can take): `NewClient` yields the client and the connection it
opens, `Ping` the reply of `client.Ping(ctx).Result()`, a string and an optional error. -/
structure Dialer (O R : Type) where
  NewClient : O → Client R × R
  Ping : O → String × Option String

/-- Function `SetupRedis`: `Except.error` is the panic `panic(pong)` raised when the probe
returns an error or anything but "PONG". -/
def SetupRedis {O : Type} (dial : Dialer O R) (opts : O)
    (encoder : String → Iface P → Except String String)
    (decoder : String → String → Except String (Iface P)) :
    Except String (RedisAdapter P R) :=
  match dial.Ping opts with
  | (pong, err) =>
    if err.isSome || pong != "PONG" then .error pong
    else .ok { client := (dial.NewClient opts).1, conn := (dial.NewClient opts).2,
               onEncode := encoder, onDecode := decoder }

/-- Method `ConfigureAdapter`. `params` is `some opts` when the dynamic type of the
`interface{}` argument is `*redis.Options` and `none` for a value of any other type; the
result is `true` for the store pointer and `false` for `nil`. -/
def Store.ConfigureAdapter {O : Type} (dial : Dialer O R) (adapter : String)
    (params : Option O) (encoder : String → Iface P → Except String String)
    (decoder : String → String → Except String (Iface P)) : Op (Store P R) Bool := fun store =>
  if adapter = "redis" then
    match params with
    | some redis_params =>
      match SetupRedis dial redis_params encoder decoder with
      | .ok redix => .ret true { store with redis := some redix }
      | .error _ => .panicked store
    | none => .panicked store
  else .ret false store

/-! ## The janitor (store.go `cleaner`, `Run`, `StopCleaner`, `StartCleaner`) -/

/-- What the `select` of method `Run` can receive: a tick of the ticker, delivered when the
clock reads `now`, or a value `status` on the channel `done`. -/
inductive Event where
  | tick (now : Int) : Event
  | done (status : Bool) : Event
  deriving DecidableEq

/-- State of the goroutine started by `StartCleaner`: in its loop, returned from `Run`,
waiting forever for the mutex inside `DeleteExpired`, or killed by a panic. -/
inductive Loop where
  | running : Loop
  | returned : Loop
  | blocked : Loop
  | crashed : Loop
  deriving DecidableEq

/-- The struct `cleaner` (the channel `done` is the source of the `Event.done` events). -/
structure cleaner where
  cleanupInterval : Int
  deriving DecidableEq

/-- A store together with its `janitor` field and the goroutine running `Run`. -/
structure Janitor (P R : Type) where
  store : Store P R
  janitor : cleaner
  loop : Loop

/-- Function `StartCleaner`: sets the `janitor` field and starts the goroutine. -/
def StartCleaner (store : Store P R) (interval : Int) : Janitor P R :=
  { store := store, janitor := { cleanupInterval := interval }, loop := Loop.running }

/-- The event sent by method `StopCleaner`: `store.janitor.done <- true`. -/
def Store.StopCleaner : Event := Event.done true

/-- One iteration of the loop of method `Run` on the event its `select` receives: a tick
calls `DeleteExpired`, a true `status` stops the ticker and returns. -/
def Store.Run (j : Janitor P R) (ev : Event) : Janitor P R :=
  match ev with
  | Event.tick now =>
    match Store.DeleteExpired now j.store with
    | .ret _ s1 => { j with store := s1 }
    | .panicked s1 => { j with store := s1, loop := Loop.crashed }
    | .blocked s1 => { j with store := s1, loop := Loop.blocked }
  | Event.done status =>
    if status then { j with loop := Loop.returned } else j

/-- The step relation of the janitor, as a function: a running loop processes the event,
any other loop processes nothing. -/
def Janitor.step (j : Janitor P R) (ev : Event) : Janitor P R :=
  match j.loop with
  | Loop.running => Store.Run j ev
  | Loop.returned => j
  | Loop.blocked => j
  | Loop.crashed => j

/-- The janitor after a sequence of events. -/
def Janitor.steps (j : Janitor P R) (evs : List Event) : Janitor P R :=
  evs.foldl Janitor.step j

/-! ## Concrete stores used as inputs -/

/-- A Redis server that is a plain key/value list, with a client that never fails. -/
def listClient : Client (List (String × String)) where
  Get := fun r k =>
    match r.lookup k with
    | some v => (r, v, none)
    | none => (r, "", some RedisErr.Nil)
  Set := fun r k v _ => (k, v) :: r.filter (fun e => e.1 ≠ k)
  Del := fun r k => (r.filter (fun e => e.1 ≠ k), if (r.lookup k).isSome then 1 else 0)

/-- The encoder of the tests, `value.(string)`: it accepts string payloads only. -/
def stringEncoder : String → Iface String → Except String String
  | _, Iface.obj w => .ok w
  | _, _ => .error "not a string"

/-- The decoder of the tests: the stored string is the value. -/
def stringDecoder : String → String → Except String (Iface String) :=
  fun _ w => .ok (Iface.obj w)

/-- The encoder of `TestEncoderPanic`: it always returns an error. -/
def failingEncoder : String → Iface String → Except String String :=
  fun _ _ => .error "Encoder failed to encode"

/-- An in-memory store `New(2000)` with the callback registered. -/
def memStore : Store String (List (String × String)) :=
  (Store.New 2000).OnDelete

/-- A store `New(d)` bound to an adapter over the server contents `conn`, callback
registered. -/
def redisStore (d : Int) (conn : List (String × String))
    (enc : String → Iface String → Except String String) :
    Store String (List (String × String)) :=
  { defaultExpiration := d, cache := ∅, mutex := RWMutex.free, onDeleted := true,
    redis := some { client := listClient, conn := conn, onDecode := stringDecoder,
                    onEncode := enc },
    fired := [] }

/-- The store reached from `memStore` by `Put("a", "x", 10)` at clock reading 100. -/
def memStoreA : Store String (List (String × String)) :=
  (Store.Put "a" (Iface.obj "x") 10 100 memStore).state

/-- The store of `TestNonExpiringItems`: `New(-2000)`, then `Put("key_1", "x",
ExpiryInfinity)` at clock reading 100. -/
def foreverStore : Store String (List (String × String)) :=
  (Store.Put "key_1" (Iface.obj "x") ExpiryInfinity 100 (Store.New (-2000)).OnDelete).state

/-- The store of `TestGetExpired`: `New(-2000)` with the callback registered, then
`Put("key_1", "x", DefaultExpiry)` at clock reading 100; its entry expired at -1900. -/
def expiredStore : Store String (List (String × String)) :=
  (Store.Put "key_1" (Iface.obj "x") DefaultExpiry 100 (Store.New (-2000)).OnDelete).state

/-- A store `New(-2000)` bound to an adapter whose server holds "k", absent from memory. -/
def staleStore : Store String (List (String × String)) :=
  redisStore (-2000) [("k", "v")] stringEncoder

/-- A store `New(2000)` bound to an adapter whose server holds "k", absent from memory. -/
def freshStore : Store String (List (String × String)) :=
  redisStore 2000 [("k", "v")] stringEncoder

/-- The keys of `TestDeleteExpired`. -/
def twentyKeys : List String :=
  ["key_0", "key_1", "key_2", "key_3", "key_4", "key_5", "key_6", "key_7", "key_8", "key_9",
   "key_10", "key_11", "key_12", "key_13", "key_14", "key_15", "key_16", "key_17", "key_18",
   "key_19"]

/-- The loop of `TestDeleteExpired`: `Put(k, k, DefaultExpiry)` for each key, every call at
clock reading `now`. -/
def putAll : List String → Int → Store String (List (String × String)) →
    Store String (List (String × String))
  | [], _, s => s
  | k :: ks, now, s => putAll ks now (Store.Put k (Iface.obj k) DefaultExpiry now s).state

/-- The store of `TestDeleteExpired` before the sweep: twenty entries, all expired at birth. -/
def preExpiredStore : Store String (List (String × String)) :=
  putAll twentyKeys 100 (Store.New (-2000)).OnDelete

/-- The store of `TestCachingWithRedis` after `Set("expiry_data", "hellew_world", 100)` at
clock reading 50 on a store bound to an empty server. -/
def cachedStore : Store String (List (String × String)) :=
  (Store.Set "expiry_data" (Iface.obj "hellew_world") 100 50
    (redisStore 2000 [] stringEncoder)).state

/-- The decoder of `TestDecoderPanic`: it always returns an error. -/
def failingDecoder : String → String → Except String (Iface String) :=
  fun _ _ => .error "Decoder failed to decode"

/-- A client whose every lookup fails with an error other than `redis.Nil` and yields the
empty string. -/
def brokenClient : Client (List (String × String)) where
  Get := fun r _ => (r, "", some RedisErr.other)
  Set := fun r _ _ _ => r
  Del := fun r _ => (r, 0)

/-- An adapter over `client` and the server contents `conn`, with the string encoder. -/
def testAdapter (client : Client (List (String × String))) (conn : List (String × String))
    (dec : String → String → Except String (Iface String)) :
    RedisAdapter String (List (String × String)) :=
  { client := client, conn := conn, onDecode := dec, onEncode := stringEncoder }

/-- The adapter of `TestEncoderPanic`: an empty server, and the encoder that always fails. -/
def failingAdapter : RedisAdapter String (List (String × String)) :=
  { client := listClient, conn := [], onDecode := stringDecoder, onEncode := failingEncoder }

/-- A reachable server: the probe answers "PONG", the connection opens on an empty server. -/
def upDialer : Dialer Unit (List (String × String)) where
  NewClient := fun _ => (listClient, [])
  Ping := fun _ => ("PONG", none)

/-- An unreachable server (`TestPanicSetupRedis`): the probe returns an error. -/
def downDialer : Dialer Unit (List (String × String)) where
  NewClient := fun _ => (listClient, [])
  Ping := fun _ => ("", some "dial tcp: connection refused")

end Bufrex

/-! # Theorems -/

namespace Bufrex

variable {P R : Type}

/-! ## The clock -/

theorem wrap64_of_range (x : Int) (hlo : -2 ^ 63 ≤ x) (hhi : x < 2 ^ 63) : wrap64 x = x := by
  unfold wrap64
  rw [Int.emod_eq_of_lt (by omega) (by omega)]
  omega

theorem hasExpired_infinity (now : Int) : hasExpired now ExpiryInfinity = false := by
  simp [hasExpired]

theorem hasExpired_of_le (now e : Int) (h : now ≤ e) : hasExpired now e = false := by
  unfold hasExpired
  split
  · rfl
  · simpa using h

theorem hasExpired_of_gt (now e : Int) (he : e ≠ ExpiryInfinity) (h : e < now) :
    hasExpired now e = true := by
  unfold hasExpired
  rw [if_neg he]
  simpa using h

/-! ## Closed forms of the methods on a store whose mutex is free -/

theorem Set_present (s : Store P R) (key : String) (value : Iface P) (ttl now : Int)
    (v0 : Value P) (hw : s.mutex.writer = false) (hk : s.cache.lookup key = some v0) :
    Store.Set key value ttl now s
      = .ret false { s with mutex := { s.mutex with readers := s.mutex.readers + 1 } } := by
  simp [Store.Set, bind, Op.bind, Store.RLock, Store.getStore, hw, hk, pure]

theorem Put_free (s : Store P R) (key : String) (value : Iface P) (ttl now : Int)
    (hm : s.mutex = RWMutex.free) :
    Store.Put key value ttl now s =
      match s.redis with
      | none => .ret () { s with cache := s.cache.insert key ⟨s.getUnix now ttl, value⟩ }
      | some redix =>
        match redix.SetToRedis key value ttl with
        | .ok r1 => .ret () { s with cache := s.cache.insert key ⟨s.getUnix now ttl, value⟩,
                                     redis := some r1 }
        | .error _ =>
          .panicked { s with cache := s.cache.insert key ⟨s.getUnix now ttl, value⟩ } := by
  obtain ⟨d, c, m, o, r, f⟩ := s
  simp only at hm
  subst hm
  cases r with
  | none =>
    simp [Store.Put, bind, Op.bind, Store.Lock, Store.Unlock, Store.getStore, Store.assign,
      pure, RWMutex.free, Store.adapterExists, Store.getUnix]
  | some redix =>
    simp [Store.Put, bind, Op.bind, Store.Lock, Store.Unlock, Store.getStore, Store.assign,
      pure, RWMutex.free, Store.adapterExists, Store.redisSet, Store.getUnix]
    cases h : redix.SetToRedis key value ttl <;> simp

theorem Put_state (s : Store P R) (key : String) (value : Iface P) (ttl now : Int)
    (hm : s.mutex = RWMutex.free) :
    (Store.Put key value ttl now s).isBlocked = false ∧
    (Store.Put key value ttl now s).state.cache
      = s.cache.insert key ⟨s.getUnix now ttl, value⟩ ∧
    (Store.Put key value ttl now s).state.mutex = RWMutex.free ∧
    (Store.Put key value ttl now s).state.defaultExpiration = s.defaultExpiration ∧
    (Store.Put key value ttl now s).state.onDeleted = s.onDeleted ∧
    (Store.Put key value ttl now s).state.fired = s.fired := by
  rw [Put_free s key value ttl now hm]
  cases hr : s.redis with
  | none => simp [Outcome.isBlocked, Outcome.state, hm]
  | some redix =>
    cases h : redix.SetToRedis key value ttl <;>
      simp [h, Outcome.isBlocked, Outcome.state, hm]

theorem Set_absent (s : Store P R) (key : String) (value : Iface P) (ttl now : Int)
    (hm : s.mutex = RWMutex.free) (hk : s.cache.lookup key = none) :
    Store.Set key value ttl now s =
      match Store.Put key value ttl now s with
      | .ret _ s1 => .ret true s1
      | .panicked s1 => .panicked s1
      | .blocked s1 => .blocked s1 := by
  obtain ⟨d, c, m, o, r, f⟩ := s
  simp only at hm hk
  subst hm
  simp [Store.Set, bind, Op.bind, Store.RLock, Store.RUnlock, Store.getStore, hk, pure,
    RWMutex.free]
  generalize Store.Put key value ttl now _ = out
  cases out <;> rfl

theorem Get_hit (s : Store P R) (key : String) (now : Int) (v : Value P)
    (hw : s.mutex.writer = false) (hk : s.cache.lookup key = some v)
    (he : hasExpired now v.expiry = false) :
    Store.Get key now s = .ret (v.Object, true) s := by
  obtain ⟨d, c, ⟨n, w⟩, o, r, f⟩ := s
  simp only at hw hk
  subst hw
  simp [Store.Get, bind, Op.bind, Store.RLock, Store.RUnlock, Store.getStore, hk, he, pure]

theorem Get_expired (s : Store P R) (key : String) (now : Int) (v : Value P)
    (hw : s.mutex.writer = false) (hk : s.cache.lookup key = some v)
    (he : hasExpired now v.expiry = true) :
    Store.Get key now s = .ret (Iface.nil, false)
      { s with cache := s.cache.erase key,
               fired := if s.onDeleted then s.fired ++ [(key, v.Object)] else s.fired } := by
  obtain ⟨d, c, ⟨n, w⟩, o, r, f⟩ := s
  simp only at hw hk
  subst hw
  cases o <;>
    simp [Store.Get, bind, Op.bind, Store.RLock, Store.RUnlock, Store.getStore, hk, he, pure,
      Store.remove, Store.notify]

theorem Get_after_Put (s : Store P R) (key : String) (value : Iface P) (ttl t0 t : Int)
    (hm : s.mutex = RWMutex.free) (he : hasExpired t (s.getUnix t0 ttl) = false) :
    Store.Get key t (Store.Put key value ttl t0 s).state
      = .ret (value, true) (Store.Put key value ttl t0 s).state := by
  obtain ⟨_, hc, hmx, _, _, _⟩ := Put_state s key value ttl t0 hm
  have hk : (Store.Put key value ttl t0 s).state.cache.lookup key
      = some ⟨s.getUnix t0 ttl, value⟩ := by
    rw [hc]; exact AList.lookup_insert _
  exact Get_hit _ key t ⟨s.getUnix t0 ttl, value⟩ (by rw [hmx]; rfl) hk he

theorem Put_returns_iff (s : Store P R) (key : String) (value : Iface P) (ttl now : Int)
    (hm : s.mutex = RWMutex.free) :
    (Store.Put key value ttl now s).returned = true ↔
      ∀ redix, s.redis = some redix → ∃ w, redix.onEncode key value = .ok w := by
  rw [Put_free s key value ttl now hm]
  cases hr : s.redis with
  | none => simp [Outcome.returned]
  | some redix =>
    cases h : redix.onEncode key value <;>
      simp [h, RedisAdapter.SetToRedis, Outcome.returned]

theorem Put_panics_iff (s : Store P R) (key : String) (value : Iface P) (ttl now : Int)
    (hm : s.mutex = RWMutex.free) :
    (Store.Put key value ttl now s).isPanicked = true ↔
      ∃ redix e, s.redis = some redix ∧ redix.onEncode key value = .error e := by
  rw [Put_free s key value ttl now hm]
  cases hr : s.redis with
  | none => simp [Outcome.isPanicked]
  | some redix =>
    cases h : redix.onEncode key value <;>
      simp [h, RedisAdapter.SetToRedis, Outcome.isPanicked]

/-! ## C1 -/

/-- C1: when `key` is already in the entry map (and no writer holds the mutex), `Set` returns
false, the entry map is the same map, `key` still holds its original value and expiry, the
adapter has not been touched and no callback has fired. -/
theorem Set_present_returns_false_unchanged (s : Store P R) (key : String) (value : Iface P)
    (ttl now : Int) (v0 : Value P)
    (hw : s.mutex.writer = false) (hk : s.cache.lookup key = some v0) :
    (Store.Set key value ttl now s).value? = some false ∧
    (Store.Set key value ttl now s).state.cache = s.cache ∧
    (Store.Set key value ttl now s).state.cache.lookup key = some v0 ∧
    (Store.Set key value ttl now s).state.redis = s.redis ∧
    (Store.Set key value ttl now s).state.fired = s.fired ∧
    (Store.Set key value ttl now s).state.defaultExpiration = s.defaultExpiration ∧
    (Store.Set key value ttl now s).state.onDeleted = s.onDeleted := by
  rw [Set_present s key value ttl now v0 hw hk]
  simp [Outcome.value?, Outcome.state, hk]

/-- Witness of C1: a second `Set` on the key "a" of `memStoreA`. -/
theorem Set_present_returns_false_unchanged_witness :
    (Store.Set "a" (Iface.obj "y") 0 105 memStoreA).value? = some false ∧
    (Store.Set "a" (Iface.obj "y") 0 105 memStoreA).state.cache = memStoreA.cache ∧
    (Store.Set "a" (Iface.obj "y") 0 105 memStoreA).state.cache.lookup "a"
      = some ⟨110, Iface.obj "x"⟩ ∧
    (Store.Set "a" (Iface.obj "y") 0 105 memStoreA).state.redis = memStoreA.redis ∧
    (Store.Set "a" (Iface.obj "y") 0 105 memStoreA).state.fired = memStoreA.fired ∧
    (Store.Set "a" (Iface.obj "y") 0 105 memStoreA).state.defaultExpiration
      = memStoreA.defaultExpiration ∧
    (Store.Set "a" (Iface.obj "y") 0 105 memStoreA).state.onDeleted = memStoreA.onDeleted :=
  Set_present_returns_false_unchanged memStoreA "a" (Iface.obj "y") 0 105
    ⟨110, Iface.obj "x"⟩ (by decide) (by decide)

/-! ## C2 -/

/-- C2, counterexample: on a store bound to an adapter whose encoder returns an error (the
encoder of `TestEncoderPanic`), `Set` on an absent key does not return true: it panics. -/
theorem Set_absent_failing_encoder_panics :
    (redisStore 2000 [] failingEncoder).mutex = RWMutex.free ∧
    (redisStore 2000 [] failingEncoder).cache.lookup "k" = none ∧
    (Store.Set "k" (Iface.obj "v") 0 100 (redisStore 2000 [] failingEncoder)).value?
      ≠ some true ∧
    (Store.Set "k" (Iface.obj "v") 0 100 (redisStore 2000 [] failingEncoder)).isPanicked
      = true := by
  decide

/-- C2, amended: on a store whose mutex is free and whose entry map lacks `key`, if no adapter
is bound or the encoder accepts `(key, value)`, `Set` returns true, and every later `Get(key)`
made before the expiry instant (more generally, while `hasExpired` is false) returns
`(value, true)`; if the encoder rejects `(key, value)`, `Set` panics. -/
theorem Set_absent_returns_true_then_Get (s : Store P R) (key : String) (value : Iface P)
    (ttl now : Int) (hm : s.mutex = RWMutex.free) (hk : s.cache.lookup key = none) :
    ((∀ redix, s.redis = some redix → ∃ w, redix.onEncode key value = .ok w) →
      ∃ s1, Store.Set key value ttl now s = .ret true s1 ∧
        (∀ t, t < s.getUnix now ttl → Store.Get key t s1 = .ret (value, true) s1) ∧
        (∀ t, hasExpired t (s.getUnix now ttl) = false →
          Store.Get key t s1 = .ret (value, true) s1)) ∧
    ((∃ redix e, s.redis = some redix ∧ redix.onEncode key value = .error e) →
      (Store.Set key value ttl now s).isPanicked = true) := by
  have hget := fun t he => Get_after_Put s key value ttl now t hm he
  have hret := Put_returns_iff s key value ttl now hm
  have hpan := Put_panics_iff s key value ttl now hm
  rw [Set_absent s key value ttl now hm hk]
  cases hP : Store.Put key value ttl now s with
  | ret u s1 =>
    rw [hP] at hget
    refine ⟨fun _ => ⟨s1, rfl, fun t ht => ?_, fun t ht => hget t ht⟩, fun _ => ?_⟩
    · exact hget t (hasExpired_of_le _ _ (le_of_lt ht))
    · rw [hP] at hpan
      exact absurd (hpan.2 ‹_›) (by simp [Outcome.isPanicked])
  | panicked s1 =>
    rw [hP] at hret
    refine ⟨fun h => ?_, fun _ => rfl⟩
    exact absurd (hret.2 h) (by simp [Outcome.returned])
  | blocked s1 =>
    have hb := (Put_state s key value ttl now hm).1
    rw [hP] at hb
    exact absurd hb (by simp [Outcome.isBlocked])

/-- Witness of C2 (amended): `Set("b", "y", 10)` at clock reading 105 on `memStoreA`, which
has no adapter, followed by a `Get("b")` at clock reading 114. -/
theorem Set_absent_returns_true_then_Get_witness :
    memStoreA.cache.lookup "b" = none ∧
    ∃ s1, Store.Set "b" (Iface.obj "y") 10 105 memStoreA = .ret true s1 ∧
      Store.Get "b" 114 s1 = .ret (Iface.obj "y", true) s1 :=
  ⟨by decide,
   ((Set_absent_returns_true_then_Get memStoreA "b" (Iface.obj "y") 10 105 (by decide)
      (by decide)).1 (fun redix h => by cases h)).imp
     (fun _ h => ⟨h.1, h.2.1 114 (by decide)⟩)⟩

/-! ## C3 -/

/-- C3, counterexample: on a store bound to an adapter whose encoder returns an error, `Put`
does not succeed: it panics (after the in-memory write). -/
theorem Put_failing_encoder_panics :
    (redisStore 2000 [] failingEncoder).mutex = RWMutex.free ∧
    (Store.Put "k" (Iface.obj "v") 0 100 (redisStore 2000 [] failingEncoder)).returned
      = false ∧
    (Store.Put "k" (Iface.obj "v") 0 100 (redisStore 2000 [] failingEncoder)).isPanicked
      = true := by
  decide

/-- C3, amended: on a store whose mutex is free, whether or not `key` was present, `Put` always
ends (it never waits), it returns normally exactly when no adapter is bound or the encoder
accepts `(key, value)` and panics otherwise, and in the state it ends in every `Get(key)` made
while the new entry is unexpired returns `(value, true)`. -/
theorem Put_then_Get_newest (s : Store P R) (key : String) (value : Iface P)
    (ttl now : Int) (hm : s.mutex = RWMutex.free) :
    (Store.Put key value ttl now s).isBlocked = false ∧
    ((Store.Put key value ttl now s).returned = true ↔
      ∀ redix, s.redis = some redix → ∃ w, redix.onEncode key value = .ok w) ∧
    ((Store.Put key value ttl now s).isPanicked = true ↔
      ∃ redix e, s.redis = some redix ∧ redix.onEncode key value = .error e) ∧
    (Store.Put key value ttl now s).state.cache.lookup key
      = some ⟨s.getUnix now ttl, value⟩ ∧
    (∀ t, hasExpired t (s.getUnix now ttl) = false →
      Store.Get key t (Store.Put key value ttl now s).state
        = .ret (value, true) (Store.Put key value ttl now s).state) := by
  refine ⟨(Put_state s key value ttl now hm).1, Put_returns_iff s key value ttl now hm,
    Put_panics_iff s key value ttl now hm, ?_,
    fun t he => Get_after_Put s key value ttl now t hm he⟩
  rw [(Put_state s key value ttl now hm).2.1]
  exact AList.lookup_insert _

/-- Witness of C3 (amended): `Put("a", "z", 0)` at clock reading 105 over the entry "a" of
`memStoreA`. -/
theorem Put_then_Get_newest_witness :
    memStoreA.cache.lookup "a" = some ⟨110, Iface.obj "x"⟩ ∧
    (Store.Put "a" (Iface.obj "z") 0 105 memStoreA).returned = true ∧
    Store.Get "a" 2105 (Store.Put "a" (Iface.obj "z") 0 105 memStoreA).state
      = .ret (Iface.obj "z", true) (Store.Put "a" (Iface.obj "z") 0 105 memStoreA).state :=
  ⟨by decide,
   (Put_then_Get_newest memStoreA "a" (Iface.obj "z") 0 105 (by decide)).2.1.2
     (fun redix h => by cases h),
   (Put_then_Get_newest memStoreA "a" (Iface.obj "z") 0 105 (by decide)).2.2.2.2 2105
     (by decide)⟩

/-! ## C4 -/

/-- C4: `Put(key, value, ttl)` executed at clock reading `t` on a store whose mutex is free
leaves every other key of the entry map as it was and makes `key` hold `value` with the
expiry resolved from `ttl`: `t + defaultExpiration` for `DefaultExpiry`, the never-expiring
sentinel for `ExpiryInfinity`, `t + ttl` otherwise (sums in `int64`, exact when they fit);
whatever `key` held before is gone. -/
theorem Put_entry_map (s : Store P R) (key : String) (value : Iface P) (ttl t : Int)
    (hm : s.mutex = RWMutex.free) :
    (Store.Put key value ttl t s).isBlocked = false ∧
    (∀ k, k ≠ key →
      (Store.Put key value ttl t s).state.cache.lookup k = s.cache.lookup k) ∧
    (Store.Put key value ttl t s).state.cache.lookup key
      = some ⟨(if ttl = DefaultExpiry then addUnixNano t s.defaultExpiration
               else if ttl = ExpiryInfinity then ExpiryInfinity
               else addUnixNano t ttl), value⟩ ∧
    (ttl = DefaultExpiry → -2 ^ 63 ≤ t + s.defaultExpiration →
      t + s.defaultExpiration < 2 ^ 63 →
      (Store.Put key value ttl t s).state.cache.lookup key
        = some ⟨t + s.defaultExpiration, value⟩) ∧
    (ttl = ExpiryInfinity →
      (Store.Put key value ttl t s).state.cache.lookup key = some ⟨ExpiryInfinity, value⟩ ∧
      ∀ t1, hasExpired t1 ExpiryInfinity = false) ∧
    (ttl ≠ DefaultExpiry → ttl ≠ ExpiryInfinity → -2 ^ 63 ≤ t + ttl → t + ttl < 2 ^ 63 →
      (Store.Put key value ttl t s).state.cache.lookup key = some ⟨t + ttl, value⟩) := by
  obtain ⟨hb, hc, -⟩ := Put_state s key value ttl t hm
  have hk : (Store.Put key value ttl t s).state.cache.lookup key
      = some ⟨s.getUnix t ttl, value⟩ := by
    rw [hc]; exact AList.lookup_insert _
  refine ⟨hb, fun k hne => ?_, ?_, fun h0 hlo hhi => ?_, fun hi => ⟨?_, hasExpired_infinity⟩,
    fun h0 hi hlo hhi => ?_⟩
  · rw [hc]; exact AList.lookup_insert_ne hne
  · rw [hk]
    unfold Store.getUnix
    by_cases h0 : ttl = DefaultExpiry
    · simp [h0]
    · by_cases hi : ttl = ExpiryInfinity
      · simp [hi]
      · simp [h0, hi]
  · rw [hk]
    simp [Store.getUnix, h0, addUnixNano, wrap64_of_range _ hlo hhi]
  · rw [hk]
    subst hi
    simp [Store.getUnix, ExpiryInfinity, DefaultExpiry]
  · rw [hk]
    simp [Store.getUnix, h0, hi, addUnixNano, wrap64_of_range _ hlo hhi]

/-- Witness of C4: `Put("a", "z", 50)` at clock reading 105 over `memStoreA`. -/
theorem Put_entry_map_witness :
    memStoreA.cache.lookup "a" = some ⟨110, Iface.obj "x"⟩ ∧
    (Store.Put "a" (Iface.obj "z") 50 105 memStoreA).state.cache.lookup "a"
      = some ⟨155, Iface.obj "z"⟩ :=
  ⟨by decide,
   (Put_entry_map memStoreA "a" (Iface.obj "z") 50 105 (by decide)).2.2.2.2.2
     (by decide) (by decide) (by decide) (by decide)⟩

/-! ## C5 -/

/-- C5, counterexample: a value stored at clock reading 100 with TTL 10 is still returned by a
`Get` at clock reading 110, when the elapsed time equals the TTL. -/
theorem Get_at_exact_ttl_still_found :
    memStoreA = (Store.Put "a" (Iface.obj "x") 10 100 memStore).state ∧
    (110 : Int) - 100 ≥ 10 ∧
    (Store.Get "a" 110 memStoreA).value? = some (Iface.obj "x", true) :=
  ⟨rfl, by decide, by decide⟩

/-- C5, amended: a value stored by `Put` at clock reading `t0` with an explicit TTL `d > 0`
(with `0 ≤ t0` and `t0 + d` an `int64` nanosecond count, on a store whose mutex is free) is
returned by a
`Get` at clock reading `t` when the elapsed time `t - t0` is at most `d`, and is reported
absent, and removed, when the elapsed time exceeds `d`. -/
theorem Get_after_ttl (s : Store P R) (key : String) (value : Iface P) (d t0 t : Int)
    (hm : s.mutex = RWMutex.free) (hd : 0 < d) (hlo : 0 ≤ t0) (hhi : t0 + d < 2 ^ 63) :
    (t - t0 ≤ d →
      Store.Get key t (Store.Put key value d t0 s).state
        = .ret (value, true) (Store.Put key value d t0 s).state) ∧
    (d < t - t0 →
      (Store.Get key t (Store.Put key value d t0 s).state).value? = some (Iface.nil, false) ∧
      (Store.Get key t (Store.Put key value d t0 s).state).state.cache.lookup key = none) := by
  have hd0 : d ≠ DefaultExpiry := by unfold DefaultExpiry; omega
  have hdi : d ≠ ExpiryInfinity := by unfold ExpiryInfinity; omega
  have hu : s.getUnix t0 d = t0 + d := by
    simp [Store.getUnix, hd0, hdi, addUnixNano, wrap64_of_range (t0 + d) (by omega) hhi]
  obtain ⟨_, hc, hmx, _, _, _⟩ := Put_state s key value d t0 hm
  have hk : (Store.Put key value d t0 s).state.cache.lookup key
      = some ⟨s.getUnix t0 d, value⟩ := by
    rw [hc]; exact AList.lookup_insert _
  refine ⟨fun hle => ?_, fun hgt => ?_⟩
  · exact Get_after_Put s key value d t0 t hm (by rw [hu]; exact hasExpired_of_le _ _ (by omega))
  · have he : hasExpired t (s.getUnix t0 d) = true := by
      rw [hu]
      exact hasExpired_of_gt _ _ (by unfold ExpiryInfinity; omega) (by omega)
    rw [Get_expired _ key t ⟨s.getUnix t0 d, value⟩ (by rw [hmx]; rfl) hk he]
    exact ⟨rfl, AList.lookup_erase _ _⟩

/-- Witness of C5 (amended): the entry "a" of `memStore`, stored at 100 with TTL 10, read at
110 and at 111. -/
theorem Get_after_ttl_witness :
    Store.Get "a" 110 (Store.Put "a" (Iface.obj "x") 10 100 memStore).state
      = .ret (Iface.obj "x", true) (Store.Put "a" (Iface.obj "x") 10 100 memStore).state ∧
    (Store.Get "a" 111 (Store.Put "a" (Iface.obj "x") 10 100 memStore).state).value?
      = some (Iface.nil, false) :=
  ⟨(Get_after_ttl memStore "a" (Iface.obj "x") 10 100 110 (by decide) (by decide) (by decide)
      (by decide)).1 (by decide),
   ((Get_after_ttl memStore "a" (Iface.obj "x") 10 100 111 (by decide) (by decide) (by decide)
      (by decide)).2 (by decide)).1⟩


/-! ## The sweep of `DeleteExpired` -/

theorem sweep_fst_lookup (now : Int) (es : List (Sigma fun _ : String => Value P))
    (c ex : Cache P) (j : String) :
    ((∃ e ∈ es, e.1 = j ∧ hasExpired now e.2.expiry = true) →
      (Store.sweep now es c ex).1.lookup j = none) ∧
    ((¬ ∃ e ∈ es, e.1 = j ∧ hasExpired now e.2.expiry = true) →
      (Store.sweep now es c ex).1.lookup j = c.lookup j) := by
  induction es generalizing c ex with
  | nil =>
    refine ⟨?_, fun _ => rfl⟩
    rintro ⟨e, he, -⟩
    cases he
  | cons e es ih =>
    obtain ⟨k, v⟩ := e
    unfold Store.sweep
    by_cases hx : hasExpired now v.expiry = true
    · rw [if_pos hx]
      by_cases hes : ∃ e ∈ es, e.1 = j ∧ hasExpired now e.2.expiry = true
      · refine ⟨fun _ => (ih _ _).1 hes, fun hn => ?_⟩
        obtain ⟨e, he, hp⟩ := hes
        exact absurd ⟨e, List.mem_cons_of_mem _ he, hp⟩ hn
      · rw [(ih _ _).2 hes]
        by_cases hj : j = k
        · subst hj
          exact ⟨fun _ => AList.lookup_erase _ _,
            fun hn => absurd ⟨⟨j, v⟩, List.mem_cons_self _ _, rfl, hx⟩ hn⟩
        · refine ⟨?_, fun _ => AList.lookup_erase_ne hj⟩
          rintro ⟨e, he, hp⟩
          rcases List.mem_cons.1 he with rfl | he
          · exact absurd hp.1.symm hj
          · exact absurd ⟨e, he, hp⟩ hes
    · rw [if_neg hx]
      refine ⟨?_, fun hn => (ih _ _).2 (fun ⟨e, he, hp⟩ => hn ⟨e, List.mem_cons_of_mem _ he, hp⟩)⟩
      rintro ⟨e, he, hp⟩
      rcases List.mem_cons.1 he with rfl | he
      · exact absurd hp.2 hx
      · exact (ih _ _).1 ⟨e, he, hp⟩

theorem sweep_entries_lookup (now : Int) (c : Cache P) (j : String) :
    (Store.sweep now c.entries c ∅).1.lookup j
      = (c.lookup j).filter (fun v => !hasExpired now v.expiry) := by
  cases hl : c.lookup j with
  | none =>
    rw [(sweep_fst_lookup now c.entries c ∅ j).2, hl]
    · rfl
    · rintro ⟨⟨k, w⟩, hm, hk, -⟩
      simp only at hk
      subst hk
      have : c.lookup k = some w := AList.mem_lookup_iff.2 hm
      rw [hl] at this
      cases this
  | some v =>
    have hmem : Sigma.mk j v ∈ c.entries := AList.mem_lookup_iff.1 hl
    by_cases hx : hasExpired now v.expiry = true
    · rw [(sweep_fst_lookup now c.entries c ∅ j).1 ⟨⟨j, v⟩, hmem, rfl, hx⟩]
      simp [Option.filter, hx]
    · rw [(sweep_fst_lookup now c.entries c ∅ j).2, hl]
      · simp [Option.filter, hx]
      · rintro ⟨⟨k, w⟩, hm, hk, hw⟩
        simp only at hk
        subst hk
        have : c.lookup k = some w := AList.mem_lookup_iff.2 hm
        rw [hl] at this
        cases this
        exact hx hw

theorem notifyAll_eq (es : List (Sigma fun _ : String => Value P)) (s : Store P R) :
    Store.notifyAll es s = .ret ()
      { s with fired := s.fired ++
          (if s.onDeleted then es.map (fun e => (e.1, e.2.toIface)) else []) } := by
  induction es generalizing s with
  | nil =>
    obtain ⟨d, c, m, o, r, f⟩ := s
    cases o <;> simp [Store.notifyAll, pure]
  | cons e es ih =>
    obtain ⟨k, v⟩ := e
    obtain ⟨d, c, m, o, r, f⟩ := s
    cases o <;>
      simp [Store.notifyAll, bind, Op.bind, Store.notify, ih]

theorem DeleteExpired_free (s : Store P R) (now : Int) (hm : s.mutex = RWMutex.free) :
    Store.DeleteExpired now s = .ret ()
      { s with cache := (Store.sweep now s.cache.entries s.cache ∅).1,
               fired := s.fired ++
                 (if s.onDeleted then
                    (Store.sweep now s.cache.entries s.cache ∅).2.entries.map
                      (fun e => (e.1, e.2.toIface))
                  else []) } := by
  obtain ⟨d, c, m, o, r, f⟩ := s
  simp only at hm
  subst hm
  simp [Store.DeleteExpired, bind, Op.bind, Store.Lock, Store.Unlock, Store.getStore,
    Store.setCache, RWMutex.free, notifyAll_eq]

theorem Cache_len_eq_zero (c : Cache P) (h : ∀ k, c.lookup k = none) : c.len = 0 := by
  unfold Cache.len
  cases he : c.entries with
  | nil => rfl
  | cons e es =>
    obtain ⟨k, v⟩ := e
    have : c.lookup k = some v := AList.mem_lookup_iff.2 (by rw [he]; exact List.mem_cons_self _ _)
    rw [h k] at this
    cases this


theorem Get_miss (s : Store P R) (key : String) (now : Int)
    (hw : s.mutex.writer = false) (hk : s.cache.lookup key = none) :
    Store.Get key now s =
      match s.redis with
      | none => .ret (Iface.nil, false) s
      | some redix =>
        match redix.GetFromRedis key with
        | .error _ => .panicked s
        | .ok ((value, found), r1) =>
          if found then
            if s.mutex.readers = 0 then
              .ret (value, true)
                { s with redis := some r1,
                         cache := s.cache.insert key
                           ⟨addUnixNano now s.defaultExpiration, value⟩ }
            else .blocked { s with redis := some r1 }
          else .ret (Iface.nil, false) { s with redis := some r1 } := by
  obtain ⟨d, c, ⟨n, w⟩, o, r, f⟩ := s
  simp only at hw hk
  subst hw
  cases r with
  | none =>
    simp [Store.Get, bind, Op.bind, Store.RLock, Store.RUnlock, Store.getStore, hk, pure,
      Store.adapterExists]
  | some redix =>
    cases hg : redix.GetFromRedis key with
    | error e =>
      simp [Store.Get, bind, Op.bind, Store.RLock, Store.RUnlock, Store.getStore, hk, pure,
        Store.adapterExists, Store.redisGet, hg]
    | ok res =>
      obtain ⟨⟨value, found⟩, r1⟩ := res
      cases found with
      | false =>
        simp [Store.Get, bind, Op.bind, Store.RLock, Store.RUnlock, Store.getStore, hk, pure,
          Store.adapterExists, Store.redisGet, hg]
      | true =>
        cases n with
        | zero =>
          simp [Store.Get, bind, Op.bind, Store.RLock, Store.RUnlock, Store.getStore, hk, pure,
            Store.adapterExists, Store.redisGet, hg, Store.putFromPersistence, Store.Lock,
            Store.Unlock, Store.assign, Store.getUnix, DefaultExpiry]
        | succ m =>
          simp [Store.Get, bind, Op.bind, Store.RLock, Store.RUnlock, Store.getStore, hk, pure,
            Store.adapterExists, Store.redisGet, hg, Store.putFromPersistence, Store.Lock,
            Store.Unlock, Store.assign, Store.getUnix, DefaultExpiry]

theorem Get_writer_held (s : Store P R) (key : String) (now : Int)
    (hw : s.mutex.writer = true) : Store.Get key now s = .blocked s := by
  simp [Store.Get, bind, Op.bind, Store.RLock, hw]

/-! ## C6 -/

/-- C6: whatever the store (its default TTL included) and whatever the clock readings, an
entry stored by `Put` with `ExpiryInfinity` on a store whose mutex is free is returned by `Get`
as `(value, true)`, is left in place by `DeleteExpired`, and is still returned afterwards. -/
theorem infinite_ttl_never_expires (s : Store P R) (key : String) (value : Iface P)
    (t0 t t1 : Int) (hm : s.mutex = RWMutex.free) :
    Store.Get key t (Store.Put key value ExpiryInfinity t0 s).state
      = .ret (value, true) (Store.Put key value ExpiryInfinity t0 s).state ∧
    ∃ s2, Store.DeleteExpired t (Store.Put key value ExpiryInfinity t0 s).state = .ret () s2 ∧
      s2.cache.lookup key = some ⟨ExpiryInfinity, value⟩ ∧
      Store.Get key t1 s2 = .ret (value, true) s2 := by
  have hu : s.getUnix t0 ExpiryInfinity = ExpiryInfinity := by
    simp [Store.getUnix, ExpiryInfinity, DefaultExpiry]
  obtain ⟨_, hc, hmx, _, _, _⟩ := Put_state s key value ExpiryInfinity t0 hm
  have hk : (Store.Put key value ExpiryInfinity t0 s).state.cache.lookup key
      = some ⟨ExpiryInfinity, value⟩ := by
    rw [hc, hu]; exact AList.lookup_insert _
  refine ⟨Get_after_Put s key value ExpiryInfinity t0 t hm
    (by rw [hu]; exact hasExpired_infinity t), ?_⟩
  rw [DeleteExpired_free _ t hmx]
  refine ⟨_, rfl, ?_, ?_⟩
  · show (Store.sweep t _ _ ∅).1.lookup key = _
    rw [sweep_entries_lookup, hk]
    simp [Option.filter, hasExpired_infinity]
  · refine Get_hit _ key t1 ⟨ExpiryInfinity, value⟩ ?_ ?_ (hasExpired_infinity t1)
    · show (Store.Put key value ExpiryInfinity t0 s).state.mutex.writer = false
      rw [hmx]; rfl
    · show (Store.sweep t _ _ ∅).1.lookup key = _
      rw [sweep_entries_lookup, hk]
      simp [Option.filter, hasExpired_infinity]

/-- Witness of C6: the store of `TestNonExpiringItems` (default TTL -2000), read at clock
reading 5000000, swept at 5000000 and read again at 9000000. -/
theorem infinite_ttl_never_expires_witness :
    Store.Get "key_1" 5000000 foreverStore = .ret (Iface.obj "x", true) foreverStore ∧
    ∃ s2, Store.DeleteExpired 5000000 foreverStore = .ret () s2 ∧
      s2.cache.lookup "key_1" = some ⟨ExpiryInfinity, Iface.obj "x"⟩ ∧
      Store.Get "key_1" 9000000 s2 = .ret (Iface.obj "x", true) s2 :=
  infinite_ttl_never_expires (Store.New (-2000)).OnDelete "key_1" (Iface.obj "x") 100
    5000000 9000000 (by decide)

/-! ## C7 -/

/-- C7: when the in-memory entry of `key` is present and expired at the clock reading of the
call (and no writer holds the mutex), `Get` removes that entry, invokes the registered
callback exactly once, with `key` and the stored object, returns `(nil, false)`, and leaves
every other entry, and the adapter, as they were. -/
theorem Get_expired_evicts (s : Store P R) (key : String) (now : Int) (v : Value P)
    (hw : s.mutex.writer = false) (hk : s.cache.lookup key = some v)
    (he : hasExpired now v.expiry = true) :
    ∃ s1, Store.Get key now s = .ret (Iface.nil, false) s1 ∧
      s1.cache = s.cache.erase key ∧
      s1.cache.lookup key = none ∧
      (∀ k, k ≠ key → s1.cache.lookup k = s.cache.lookup k) ∧
      (s.onDeleted = true → s1.fired = s.fired ++ [(key, v.Object)]) ∧
      (s.onDeleted = false → s1.fired = s.fired) ∧
      s1.redis = s.redis ∧ s1.mutex = s.mutex := by
  refine ⟨_, Get_expired s key now v hw hk he, rfl, AList.lookup_erase _ _,
    fun k hne => AList.lookup_erase_ne hne, fun ho => ?_, fun ho => ?_, rfl, rfl⟩
  · simp [ho]
  · simp [ho]

/-- Witness of C7: the store of `TestGetExpired`, whose entry "key_1" expired at -1900, read
at clock reading 100. -/
theorem Get_expired_evicts_witness :
    ∃ s1, Store.Get "key_1" 100 expiredStore = .ret (Iface.nil, false) s1 ∧
      s1.cache = expiredStore.cache.erase "key_1" ∧
      s1.cache.lookup "key_1" = none ∧
      (∀ k, k ≠ "key_1" → s1.cache.lookup k = expiredStore.cache.lookup k) ∧
      (expiredStore.onDeleted = true →
        s1.fired = expiredStore.fired ++ [("key_1", Iface.obj "x")]) ∧
      (expiredStore.onDeleted = false → s1.fired = expiredStore.fired) ∧
      s1.redis = expiredStore.redis ∧ s1.mutex = expiredStore.mutex :=
  Get_expired_evicts expiredStore "key_1" 100 ⟨-1900, Iface.obj "x"⟩ (by decide) (by decide)
    (by decide)

/-! ## C8 -/

/-- C8, counterexample: with a negative default TTL (-2000) and "k" held only by the adapter,
`Get("k")` at clock reading 100 returns found = true, and the entry it has just put in memory
has expiry -1900, already passed at that reading. -/
theorem Get_read_through_entry_already_expired :
    staleStore.defaultExpiration = -2000 ∧
    (Store.Get "k" 100 staleStore).value? = some (Iface.obj "v", true) ∧
    (Store.Get "k" 100 staleStore).state.cache.lookup "k" = some ⟨-1900, Iface.obj "v"⟩ ∧
    hasExpired 100 (-1900) = true := by
  decide

/-- C8, amended: whenever `Get(key)` returns found = true, the entry held in memory for `key`
after the call carries the returned object and has not passed its expiry at the clock reading
of the call, provided the entry was already in memory or, for a value repopulated by
read-through, the default TTL is not negative (and `now + defaultExpiration` is an `int64`
nanosecond count). -/
theorem Get_found_entry_unexpired (s s1 : Store P R) (key : String) (now : Int) (v : Iface P)
    (hget : Store.Get key now s = .ret (v, true) s1)
    (hc : (s.cache.lookup key).isSome = true ∨
      (0 ≤ s.defaultExpiration ∧ -2 ^ 63 ≤ now ∧ now + s.defaultExpiration < 2 ^ 63)) :
    ∃ e, s1.cache.lookup key = some e ∧ e.Object = v ∧ hasExpired now e.expiry = false := by
  cases hw : s.mutex.writer with
  | true =>
    rw [Get_writer_held s key now hw] at hget
    cases hget
  | false =>
    cases hk : s.cache.lookup key with
    | some v0 =>
      cases he : hasExpired now v0.expiry with
      | true =>
        rw [Get_expired s key now v0 hw hk he] at hget
        cases hget
      | false =>
        rw [Get_hit s key now v0 hw hk he] at hget
        cases hget
        exact ⟨v0, hk, rfl, he⟩
    | none =>
      rw [hk] at hc
      rcases hc with hc | ⟨hd, hlo, hhi⟩
      · cases hc
      rw [Get_miss s key now hw hk] at hget
      cases hr : s.redis with
      | none => simp [hr] at hget
      | some redix =>
        cases hg : redix.GetFromRedis key with
        | error e => simp [hr, hg] at hget
        | ok res =>
          obtain ⟨⟨value, found⟩, r1⟩ := res
          cases found with
          | false => simp [hr, hg] at hget
          | true =>
            by_cases hn : s.mutex.readers = 0
            · simp [hr, hg, hn] at hget
              obtain ⟨rfl, rfl⟩ := hget
              refine ⟨⟨addUnixNano now s.defaultExpiration, value⟩, AList.lookup_insert _,
                rfl, ?_⟩
              apply hasExpired_of_le
              show now ≤ addUnixNano now s.defaultExpiration
              unfold addUnixNano
              rw [wrap64_of_range _ (by omega) hhi]
              omega
            · simp [hr, hg, hn] at hget

/-- Witness of C8 (amended): a read-through of "k" at clock reading 100 under the default
TTL 2000. -/
theorem Get_found_entry_unexpired_witness :
    ∃ e, (Store.Get "k" 100 freshStore).state.cache.lookup "k" = some e ∧
      e.Object = Iface.obj "v" ∧ hasExpired 100 e.expiry = false :=
  Get_found_entry_unexpired freshStore (Store.Get "k" 100 freshStore).state "k" 100
    (Iface.obj "v") (by rfl) (Or.inr (by decide))

/-! ## C9 -/

/-- C9: on a store whose mutex is free, at any clock reading, `DeleteExpired` returns, and the
entry map afterwards holds exactly the entries that were unexpired before the call, with their
value and expiry, and no expired entry; when every entry was expired (as the twenty entries of
`TestDeleteExpired`), the map size afterwards is 0. -/
theorem DeleteExpired_keeps_exactly_unexpired (s : Store P R) (now : Int)
    (hm : s.mutex = RWMutex.free) :
    ∃ s1, Store.DeleteExpired now s = .ret () s1 ∧
      (∀ k, s1.cache.lookup k
        = (s.cache.lookup k).filter (fun v => !hasExpired now v.expiry)) ∧
      (∀ k v, s.cache.lookup k = some v → hasExpired now v.expiry = false →
        s1.cache.lookup k = some v) ∧
      (∀ k v, s.cache.lookup k = some v → hasExpired now v.expiry = true →
        s1.cache.lookup k = none) ∧
      (∀ k v, s1.cache.lookup k = some v →
        s.cache.lookup k = some v ∧ hasExpired now v.expiry = false) ∧
      ((∀ e ∈ s.cache.entries, hasExpired now e.2.expiry = true) → s1.cache.len = 0) := by
  rw [DeleteExpired_free s now hm]
  have hl : ∀ k, (Store.sweep now s.cache.entries s.cache ∅).1.lookup k
      = (s.cache.lookup k).filter (fun v => !hasExpired now v.expiry) :=
    fun k => sweep_entries_lookup now s.cache k
  refine ⟨_, rfl, hl, fun k v hk he => ?_, fun k v hk he => ?_, fun k v hk => ?_,
    fun hall => ?_⟩
  · show (Store.sweep now s.cache.entries s.cache ∅).1.lookup k = some v
    rw [hl, hk]
    simp [Option.filter, he]
  · show (Store.sweep now s.cache.entries s.cache ∅).1.lookup k = none
    rw [hl, hk]
    simp [Option.filter, he]
  · have hk1 : (Store.sweep now s.cache.entries s.cache ∅).1.lookup k = some v := hk
    rw [hl] at hk1
    cases h0 : s.cache.lookup k with
    | none =>
      rw [h0] at hk1
      cases hk1
    | some v0 =>
      rw [h0] at hk1
      cases he : hasExpired now v0.expiry with
      | true => simp [Option.filter, he] at hk1
      | false =>
        simp [Option.filter, he] at hk1
        subst hk1
        exact ⟨rfl, he⟩
  · apply Cache_len_eq_zero
    intro k
    show (Store.sweep now s.cache.entries s.cache ∅).1.lookup k = none
    rw [hl]
    cases h0 : s.cache.lookup k with
    | none => rfl
    | some v0 =>
      have hx := hall ⟨k, v0⟩ (AList.mem_lookup_iff.1 h0)
      simp only at hx
      simp [Option.filter, hx]

/-- Witness of C9: the sweep of `TestDeleteExpired`, twenty entries all expired at birth. -/
theorem DeleteExpired_keeps_exactly_unexpired_witness :
    preExpiredStore.cache.len = 20 ∧
    ∃ s1, Store.DeleteExpired 100 preExpiredStore = .ret () s1 ∧ s1.cache.len = 0 :=
  ⟨by decide,
   (DeleteExpired_keeps_exactly_unexpired preExpiredStore 100 (by decide)).imp
     (fun _ h => ⟨h.1, h.2.2.2.2.2 (by decide)⟩)⟩

/-! ## C10 -/

/-- C10, the code at the failing input: on the store of `TestGetExpired` (entry "key_1"
holding "x", expired), the sweep `DeleteExpired` invokes the callback once, with the `Value`
struct of the entry and not with the stored object "x"; the lazily expiring `Get` on the same
store, and `Delete` on a live entry, invoke it once with the stored object. -/
theorem DeleteExpired_callback_gets_Value_struct :
    expiredStore.onDeleted = true ∧ expiredStore.fired = [] ∧
    expiredStore.cache.lookup "key_1" = some ⟨-1900, Iface.obj "x"⟩ ∧
    (Store.DeleteExpired 100 expiredStore).state.fired
      = [("key_1", Iface.boxed (-1900) (Iface.obj "x"))] ∧
    (Store.DeleteExpired 100 expiredStore).state.fired ≠ [("key_1", Iface.obj "x")] ∧
    (Store.Get "key_1" 100 expiredStore).state.fired = [("key_1", Iface.obj "x")] ∧
    (Store.Delete "a" 105 memStoreA).state.fired = [("a", Iface.obj "x")] := by
  decide

/-! ## Closed forms of `GetFromRedis` and `Delete` -/

theorem lookup_filter_ne (r : List (String × String)) (k : String) :
    (r.filter (fun e => e.1 ≠ k)).lookup k = none := by
  induction r with
  | nil => rfl
  | cons e r ih =>
    obtain ⟨a, b⟩ := e
    by_cases h : a = k
    · rw [List.filter_cons_of_neg (by simpa using h)]
      exact ih
    · have hk : (k == a) = false := by simpa using fun h1 => h h1.symm
      rw [List.filter_cons_of_pos (by simpa using h)]
      simp only [List.lookup_cons, hk]
      exact ih

theorem listClient_Get_Del (r : List (String × String)) (k : String) :
    (listClient.Get (listClient.Del r k).1 k).2.2 = some RedisErr.Nil := by
  dsimp only [listClient]
  rw [lookup_filter_ne]

theorem GetFromRedis_nil (redix : RedisAdapter P R) (key : String) (conn1 : R) (w : String)
    (h : redix.client.Get redix.conn key = (conn1, w, some RedisErr.Nil)) :
    redix.GetFromRedis key = .ok ((Iface.nil, false), { redix with conn := conn1 }) := by
  simp [RedisAdapter.GetFromRedis, h]

theorem GetFromRedis_decoded (redix : RedisAdapter P R) (key : String) (conn1 : R)
    (w : String) (err : Option RedisErr) (o : Iface P)
    (h : redix.client.Get redix.conn key = (conn1, w, err)) (hn : err ≠ some RedisErr.Nil)
    (hd : redix.onDecode key w = .ok o) :
    redix.GetFromRedis key = .ok ((o, true), { redix with conn := conn1 }) := by
  simp [RedisAdapter.GetFromRedis, h, hn, hd]

theorem GetFromRedis_decode_error (redix : RedisAdapter P R) (key : String) (conn1 : R)
    (w : String) (err : Option RedisErr) (e : String)
    (h : redix.client.Get redix.conn key = (conn1, w, err)) (hn : err ≠ some RedisErr.Nil)
    (hd : redix.onDecode key w = .error e) :
    redix.GetFromRedis key = .error e := by
  simp [RedisAdapter.GetFromRedis, h, hn, hd]

theorem GetFromRedis_ok_client (redix r1 : RedisAdapter P R) (key : String)
    (res : Iface P × Bool) (h : redix.GetFromRedis key = .ok (res, r1)) :
    r1.client = redix.client ∧ r1.onDecode = redix.onDecode ∧ r1.onEncode = redix.onEncode := by
  unfold RedisAdapter.GetFromRedis at h
  split at h
  rename_i conn1 w err _
  split at h
  · cases h
    exact ⟨rfl, rfl, rfl⟩
  · split at h
    · cases h
      exact ⟨rfl, rfl, rfl⟩
    · cases h

theorem Get_found_cases (s s1 : Store P R) (key : String) (now : Int) (v : Iface P)
    (hget : Store.Get key now s = .ret (v, true) s1) :
    (∃ e, s.cache.lookup key = some e ∧ hasExpired now e.expiry = false ∧ v = e.Object ∧
      s1 = s) ∨
    (s.cache.lookup key = none ∧ s.mutex.readers = 0 ∧
      ∃ redix r1, s.redis = some redix ∧ redix.GetFromRedis key = .ok ((v, true), r1) ∧
        s1 = { s with redis := some r1,
                      cache := s.cache.insert key
                        ⟨addUnixNano now s.defaultExpiration, v⟩ }) := by
  cases hw : s.mutex.writer with
  | true =>
    rw [Get_writer_held s key now hw] at hget
    cases hget
  | false =>
    cases hk : s.cache.lookup key with
    | some v0 =>
      cases he : hasExpired now v0.expiry with
      | true =>
        rw [Get_expired s key now v0 hw hk he] at hget
        cases hget
      | false =>
        rw [Get_hit s key now v0 hw hk he] at hget
        cases hget
        exact Or.inl ⟨v0, rfl, he, rfl, rfl⟩
    | none =>
      rw [Get_miss s key now hw hk] at hget
      cases hr : s.redis with
      | none => simp [hr] at hget
      | some redix =>
        cases hg : redix.GetFromRedis key with
        | error e => simp [hr, hg] at hget
        | ok res =>
          obtain ⟨⟨value, found⟩, r1⟩ := res
          cases found with
          | false => simp [hr, hg] at hget
          | true =>
            by_cases hn : s.mutex.readers = 0
            · simp [hr, hg, hn] at hget
              obtain ⟨rfl, rfl⟩ := hget
              exact Or.inr ⟨rfl, hn, redix, r1, rfl, hg, rfl⟩
            · simp [hr, hg, hn] at hget

theorem Delete_not_found (s s1 : Store P R) (key : String) (now : Int) (v : Iface P)
    (h : Store.Get key now s = .ret (v, false) s1) :
    Store.Delete key now s = .ret () s1 := by
  simp [Store.Delete, bind, Op.bind, h, pure]

theorem Delete_found (s s1 : Store P R) (key : String) (now : Int) (v : Iface P)
    (h : Store.Get key now s = .ret (v, true) s1) (hm : s1.mutex = RWMutex.free) :
    Store.Delete key now s = .ret ()
      { s1 with cache := s1.cache.erase key,
                redis := s1.redis.map (fun redix => (redix.DeleteFromRedis key).2),
                fired := if s1.onDeleted then s1.fired ++ [(key, v)] else s1.fired } := by
  obtain ⟨d, c, m, o, r, f⟩ := s1
  simp only at hm
  subst hm
  cases r with
  | none =>
    cases o <;>
      simp [Store.Delete, bind, Op.bind, h, pure, Store.Lock, Store.Unlock, Store.remove,
        Store.getStore, Store.adapterExists, Store.notify, RWMutex.free]
  | some redix =>
    cases o <;>
      simp [Store.Delete, bind, Op.bind, h, pure, Store.Lock, Store.Unlock, Store.remove,
        Store.getStore, Store.adapterExists, Store.notify, RWMutex.free, Store.redisDel]

/-! ## C11 -/

/-- C11: when `Get(key)` reports found (on a store whose mutex is free), `Delete(key)`
returns, the key is gone from the entry map, every other entry is as before, the callback is
invoked exactly once, with `key` and the value `Get` found, and a bound adapter has issued
`Del` on the key, so that, on a server where a deleted key is looked up as `redis.Nil`, a
direct `GetFromRedis(key)` reports not found. -/
theorem Delete_found_removes (s s1 : Store P R) (key : String) (now : Int) (v : Iface P)
    (hget : Store.Get key now s = .ret (v, true) s1) (hm : s.mutex = RWMutex.free) :
    ∃ s2, Store.Delete key now s = .ret () s2 ∧
      s2.cache.lookup key = none ∧
      (∀ k, k ≠ key → s2.cache.lookup k = s.cache.lookup k) ∧
      (s.onDeleted = true → s2.fired = s.fired ++ [(key, v)]) ∧
      (s.onDeleted = false → s2.fired = s.fired) ∧
      (s.redis = none → s2.redis = none) ∧
      (∀ redix, s.redis = some redix →
        ∃ r1 redix2, s1.redis = some r1 ∧ redix2 = (r1.DeleteFromRedis key).2 ∧
          s2.redis = some redix2 ∧
          ((∀ r, (redix.client.Get (redix.client.Del r key).1 key).2.2 = some RedisErr.Nil) →
            ∃ rx, redix2.GetFromRedis key = .ok ((Iface.nil, false), rx))) := by
  have hframe : s1.mutex = s.mutex ∧ s1.onDeleted = s.onDeleted ∧ s1.fired = s.fired ∧
      (∀ k, k ≠ key → s1.cache.lookup k = s.cache.lookup k) ∧
      (s.redis = none → s1.redis = none) ∧
      (∀ redix, s.redis = some redix → ∃ r1, s1.redis = some r1 ∧ r1.client = redix.client) := by
    rcases Get_found_cases s s1 key now v hget with ⟨e, _, _, _, rfl⟩ |
      ⟨_, _, redix, r1, hr, hg, rfl⟩
    · exact ⟨rfl, rfl, rfl, fun _ _ => rfl, fun h => h, fun redix h => ⟨redix, h, rfl⟩⟩
    · refine ⟨rfl, rfl, rfl, fun k hne => AList.lookup_insert_ne hne, fun h => ?_,
        fun redix0 h => ⟨r1, rfl, ?_⟩⟩
      · rw [hr] at h
        cases h
      · rw [hr] at h
        cases h
        exact (GetFromRedis_ok_client redix r1 key _ hg).1
  obtain ⟨hmx, ho, hf, hk, hnone, hsome⟩ := hframe
  rw [Delete_found s s1 key now v hget (by rw [hmx, hm])]
  refine ⟨_, rfl, AList.lookup_erase _ _, fun k hne => ?_, fun h => ?_, fun h => ?_,
    fun h => ?_, fun redix h => ?_⟩
  · show (s1.cache.erase key).lookup k = _
    rw [AList.lookup_erase_ne hne, hk k hne]
  · show (if s1.onDeleted then s1.fired ++ [(key, v)] else s1.fired) = _
    rw [ho, hf, h]
    rfl
  · show (if s1.onDeleted then s1.fired ++ [(key, v)] else s1.fired) = _
    rw [ho, hf, h]
    rfl
  · show s1.redis.map _ = none
    rw [hnone h]
    rfl
  · obtain ⟨r1, hr1, hcl⟩ := hsome redix h
    refine ⟨r1, (r1.DeleteFromRedis key).2, hr1, rfl, ?_, fun hdel => ?_⟩
    · show s1.redis.map _ = _
      rw [hr1]
      rfl
    · have hq := hdel r1.conn
      rw [← hcl] at hq
      cases hres : r1.client.Get (r1.client.Del r1.conn key).1 key with
      | mk conn1 rest =>
        obtain ⟨w, err⟩ := rest
        rw [hres] at hq
        simp only at hq
        subst hq
        exact ⟨_, GetFromRedis_nil (r1.DeleteFromRedis key).2 key conn1 w hres⟩

/-- Witness of C11: the sequence of `TestCachingWithRedis`, `Set("expiry_data",
"hellew_world", 100)` at clock reading 50, then `Delete("expiry_data")` at 60. -/
theorem Delete_found_removes_witness :
    ∃ s2, Store.Delete "expiry_data" 60 cachedStore = .ret () s2 ∧
      s2.cache.lookup "expiry_data" = none ∧
      s2.fired = [("expiry_data", Iface.obj "hellew_world")] ∧
      ∃ redix2 rx, s2.redis = some redix2 ∧
        redix2.GetFromRedis "expiry_data" = .ok ((Iface.nil, false), rx) := by
  obtain ⟨s2, h1, h2, _, h4, _, _, h7⟩ :=
    Delete_found_removes cachedStore (Store.Get "expiry_data" 60 cachedStore).state
      "expiry_data" 60 (Iface.obj "hellew_world") (by rfl) (by decide)
  obtain ⟨r1, redix2, _, _, h8, h9⟩ := h7 _ rfl
  obtain ⟨rx, h10⟩ := h9 (fun r => listClient_Get_Del r "expiry_data")
  exact ⟨s2, h1, h2, h4 (by decide), redix2, rx, h8, h10⟩

/-! ## C12 -/

/-- C12, counterexample: on the store of `TestGetExpired`, whose entry "key_1" has expired,
`Delete("key_1")` is not a no-op: the entry leaves the entry map and the callback is invoked. -/
theorem Delete_expired_entry_is_not_noop :
    expiredStore.cache.lookup "key_1" = some ⟨-1900, Iface.obj "x"⟩ ∧
    hasExpired 100 (-1900) = true ∧
    expiredStore.fired = [] ∧
    (Store.Delete "key_1" 100 expiredStore).state.cache.lookup "key_1" = none ∧
    (Store.Delete "key_1" 100 expiredStore).state.fired = [("key_1", Iface.obj "x")] := by
  decide

/-- C12, amended: (no writer holding the mutex) for a key absent from memory, `Delete` returns
with the store unchanged when no adapter is bound, and with the entry map and the callback
trace unchanged, the adapter having only been looked up, when the adapter reports the key as
not found; for a key whose entry has expired, `Delete` removes that entry from the entry
map and the callback is invoked once with the stored object (the lazy expiry of the `Get` it
starts with), the adapter being left as it was. -/
theorem Delete_absent_or_expired (s : Store P R) (key : String) (now : Int)
    (hw : s.mutex.writer = false) :
    (s.cache.lookup key = none → s.redis = none → Store.Delete key now s = .ret () s) ∧
    (s.cache.lookup key = none → ∀ redix conn1 w, s.redis = some redix →
      redix.client.Get redix.conn key = (conn1, w, some RedisErr.Nil) →
      Store.Delete key now s = .ret () { s with redis := some { redix with conn := conn1 } }) ∧
    (∀ v, s.cache.lookup key = some v → hasExpired now v.expiry = true →
      Store.Delete key now s = .ret ()
        { s with cache := s.cache.erase key,
                 fired := if s.onDeleted then s.fired ++ [(key, v.Object)] else s.fired }) := by
  refine ⟨fun hk hr => ?_, fun hk redix conn1 w hr hc => ?_, fun v hk he => ?_⟩
  · apply Delete_not_found s s key now Iface.nil
    rw [Get_miss s key now hw hk, hr]
  · apply Delete_not_found s _ key now Iface.nil
    rw [Get_miss s key now hw hk, hr]
    simp only [GetFromRedis_nil redix key conn1 w hc]
    rfl
  · exact Delete_not_found s _ key now Iface.nil (Get_expired s key now v hw hk he)

/-- Witness of C12 (amended): `Delete` of the absent key "zz" on `memStoreA`, and of the
expired key "key_1" on the store of `TestGetExpired`. -/
theorem Delete_absent_or_expired_witness :
    Store.Delete "zz" 105 memStoreA = .ret () memStoreA ∧
    (Store.Delete "key_1" 100 expiredStore).state.fired = [("key_1", Iface.obj "x")] :=
  ⟨(Delete_absent_or_expired memStoreA "zz" 105 (by decide)).1 (by decide) rfl,
   by
    rw [(Delete_absent_or_expired expiredStore "key_1" 100 (by decide)).2.2
      ⟨-1900, Iface.obj "x"⟩ (by decide) (by decide)]
    decide⟩

/-! ## C13 -/

/-- C13, counterexample: with the default TTL -2000 and "k" held only by the adapter, the
first `Get("k")` returns `("v", true)` and the repeat `Get("k")` returns `(nil, false)`: the
entry put in memory by the read-through was already expired. -/
theorem repeat_Get_after_read_through_not_found :
    staleStore.defaultExpiration = -2000 ∧
    staleStore.cache.lookup "k" = none ∧
    (Store.Get "k" 100 staleStore).value? = some (Iface.obj "v", true) ∧
    (Store.Get "k" 100 (Store.Get "k" 100 staleStore).state).value?
      = some (Iface.nil, false) := by
  decide

/-- C13, amended: with an adapter bound, a default TTL that is not negative, a clock reading
`now` with `-2 ^ 63 ≤ now` and `now + defaultExpiration < 2 ^ 63` (the expiry is an `int64`
nanosecond count: the sum does not wrap), the mutex free, and `key` absent from memory while
the client returns, without `redis.Nil`, a string the decoder accepts, `Get(key)` at clock
reading `now` returns `(decoded value, true)` and stores the entry with expiry
`now + defaultExpiration`; a repeat `Get(key)` made at a reading `t` not past that expiry
returns the same value and leaves the whole store, the adapter and its connection included,
exactly as it was: it is served from memory. -/
theorem Get_read_through_then_memory (s : Store P R) (key : String) (now t : Int)
    (redix : RedisAdapter P R) (conn1 : R) (w : String) (err : Option RedisErr) (v : Iface P)
    (hm : s.mutex = RWMutex.free) (hk : s.cache.lookup key = none)
    (hr : s.redis = some redix)
    (hc : redix.client.Get redix.conn key = (conn1, w, err)) (hn : err ≠ some RedisErr.Nil)
    (hd : redix.onDecode key w = .ok v)
    (hdef : 0 ≤ s.defaultExpiration) (hlo : -2 ^ 63 ≤ now)
    (hhi : now + s.defaultExpiration < 2 ^ 63) (ht : t ≤ now + s.defaultExpiration) :
    ∃ s1, Store.Get key now s = .ret (v, true) s1 ∧
      s1.cache.lookup key = some ⟨now + s.defaultExpiration, v⟩ ∧
      s1.redis = some { redix with conn := conn1 } ∧
      Store.Get key t s1 = .ret (v, true) s1 := by
  have hu : addUnixNano now s.defaultExpiration = now + s.defaultExpiration := by
    unfold addUnixNano
    exact wrap64_of_range _ (by omega) hhi
  have hmr : s.mutex.readers = 0 := by rw [hm]; rfl
  have hmw : s.mutex.writer = false := by rw [hm]; rfl
  have hget : Store.Get key now s = .ret (v, true)
      { s with redis := some { redix with conn := conn1 },
               cache := s.cache.insert key ⟨now + s.defaultExpiration, v⟩ } := by
    rw [Get_miss s key now hmw hk, hr]
    simp only [GetFromRedis_decoded redix key conn1 w err v hc hn hd, hmr, hu]
    rfl
  refine ⟨_, hget, AList.lookup_insert _, rfl, ?_⟩
  exact Get_hit _ key t ⟨now + s.defaultExpiration, v⟩ hmw (AList.lookup_insert _)
    (hasExpired_of_le _ _ ht)

/-- Witness of C13 (amended): the read-through of `TestSetupInRedisNotInMemory` under the
default TTL 2000, at clock reading 100, repeated at 2100. -/
theorem Get_read_through_then_memory_witness :
    ∃ s1, Store.Get "k" 100 freshStore = .ret (Iface.obj "v", true) s1 ∧
      s1.cache.lookup "k" = some ⟨100 + freshStore.defaultExpiration, Iface.obj "v"⟩ ∧
      s1.redis = some { testAdapter listClient [("k", "v")] stringDecoder with
                        conn := [("k", "v")] } ∧
      Store.Get "k" 2100 s1 = .ret (Iface.obj "v", true) s1 :=
  Get_read_through_then_memory freshStore "k" 100 2100
    (testAdapter listClient [("k", "v")] stringDecoder) [("k", "v")] "v" none (Iface.obj "v")
    (by decide) (by decide) rfl rfl (by decide) rfl (by decide) (by decide) (by decide)
    (by decide)

/-! ## C14 -/

/-- C14: with an adapter bound (mutex free), an encoder that accepts `(key, v)` and a decoder
that maps the encoded string back to `v`, on a server whose lookup of `key` right after the
`Set` of `key` replies the string that was set, any `Put(key, v, ttl)`, and any `Set(key, v,
ttl)` on an absent key, returns normally (`Set` with true) and a direct `GetFromRedis(key)`
on the adapter then returns `(v, true)`. -/
theorem write_through_then_GetFromRedis (s : Store P R) (key : String) (v : Iface P)
    (ttl now : Int) (redix : RedisAdapter P R) (w : String) (conn1 : R)
    (hm : s.mutex = RWMutex.free) (hr : s.redis = some redix)
    (henc : redix.onEncode key v = .ok w) (hdec : redix.onDecode key w = .ok v)
    (hcl : redix.client.Get (redix.client.Set redix.conn key w ttl) key = (conn1, w, none)) :
    (∃ s1 redix1 rx, Store.Put key v ttl now s = .ret () s1 ∧ s1.redis = some redix1 ∧
      redix1.GetFromRedis key = .ok ((v, true), rx)) ∧
    (s.cache.lookup key = none →
      ∃ s1 redix1 rx, Store.Set key v ttl now s = .ret true s1 ∧ s1.redis = some redix1 ∧
        redix1.GetFromRedis key = .ok ((v, true), rx)) := by
  have hput : Store.Put key v ttl now s = .ret ()
      { s with cache := s.cache.insert key ⟨s.getUnix now ttl, v⟩,
               redis := some { redix with conn := redix.client.Set redix.conn key w ttl } } := by
    rw [Put_free s key v ttl now hm, hr]
    simp [RedisAdapter.SetToRedis, henc]
  have hq : ({ redix with conn := redix.client.Set redix.conn key w ttl } :
      RedisAdapter P R).GetFromRedis key
      = .ok ((v, true), { redix with conn := conn1 }) :=
    GetFromRedis_decoded _ key conn1 w none v hcl (by simp) hdec
  refine ⟨⟨_, _, _, hput, rfl, hq⟩, fun hk => ?_⟩
  rw [Set_absent s key v ttl now hm hk, hput]
  exact ⟨_, _, _, rfl, rfl, hq⟩

/-- Witness of C14: the `Set` of `TestCachingWithRedis` on a store bound to an empty server,
followed by the direct adapter query. -/
theorem write_through_then_GetFromRedis_witness :
    ∃ s1 redix1 rx,
      Store.Set "expiry_data" (Iface.obj "hellew_world") 100 50
        (redisStore 2000 [] stringEncoder) = .ret true s1 ∧
      s1.redis = some redix1 ∧
      redix1.GetFromRedis "expiry_data" = .ok ((Iface.obj "hellew_world", true), rx) :=
  (write_through_then_GetFromRedis (redisStore 2000 [] stringEncoder) "expiry_data"
    (Iface.obj "hellew_world") 100 50 (testAdapter listClient [] stringDecoder)
    "hellew_world" [("expiry_data", "hellew_world")] (by decide) rfl rfl rfl rfl).2
    (by decide)

/-! ## C15 -/

/-- C15: with an adapter bound (mutex free), when the encoder returns an error on `(key, v)`,
`Put(key, v, ttl)`, and `Set(key, v, ttl)` on an absent key, do not return: they panic; the
adapter, its connection included, is exactly as before (nothing was sent), and the entry map
holds the new value for `key`: the in-memory write is not rolled back. -/
theorem encoder_error_panics_without_rollback (s : Store P R) (key : String) (v : Iface P)
    (ttl now : Int) (redix : RedisAdapter P R) (e : String)
    (hm : s.mutex = RWMutex.free) (hr : s.redis = some redix)
    (henc : redix.onEncode key v = .error e) :
    (Store.Put key v ttl now s
        = .panicked { s with cache := s.cache.insert key ⟨s.getUnix now ttl, v⟩ } ∧
      (Store.Put key v ttl now s).returned = false ∧
      (Store.Put key v ttl now s).state.redis = some redix ∧
      (Store.Put key v ttl now s).state.cache.lookup key = some ⟨s.getUnix now ttl, v⟩) ∧
    (s.cache.lookup key = none →
      Store.Set key v ttl now s
        = .panicked { s with cache := s.cache.insert key ⟨s.getUnix now ttl, v⟩ } ∧
      (Store.Set key v ttl now s).returned = false ∧
      (Store.Set key v ttl now s).state.redis = some redix ∧
      (Store.Set key v ttl now s).state.cache.lookup key = some ⟨s.getUnix now ttl, v⟩) := by
  have hput : Store.Put key v ttl now s
      = .panicked { s with cache := s.cache.insert key ⟨s.getUnix now ttl, v⟩ } := by
    rw [Put_free s key v ttl now hm, hr]
    simp [RedisAdapter.SetToRedis, henc]
  refine ⟨⟨hput, ?_, ?_, ?_⟩, fun hk => ?_⟩
  · rw [hput]; rfl
  · rw [hput]; exact hr
  · rw [hput]; exact AList.lookup_insert _
  · have hset : Store.Set key v ttl now s
        = .panicked { s with cache := s.cache.insert key ⟨s.getUnix now ttl, v⟩ } := by
      rw [Set_absent s key v ttl now hm hk, hput]
    refine ⟨hset, ?_, ?_, ?_⟩
    · rw [hset]; rfl
    · rw [hset]; exact hr
    · rw [hset]; exact AList.lookup_insert _

/-- Witness of C15: `Put("redis_failure", "hello set faiilure", 2000)` with the encoder of
`TestEncoderPanic`. -/
theorem encoder_error_panics_without_rollback_witness :
    (Store.Put "redis_failure" (Iface.obj "hello set faiilure") 2000 100
      (redisStore 2000 [] failingEncoder)).returned = false ∧
    (Store.Put "redis_failure" (Iface.obj "hello set faiilure") 2000 100
      (redisStore 2000 [] failingEncoder)).state.redis
      = some (failingAdapter) ∧
    (Store.Put "redis_failure" (Iface.obj "hello set faiilure") 2000 100
      (redisStore 2000 [] failingEncoder)).state.cache.lookup "redis_failure"
      = some ⟨(redisStore 2000 [] failingEncoder).getUnix 100 2000,
          Iface.obj "hello set faiilure"⟩ :=
  (encoder_error_panics_without_rollback (redisStore 2000 [] failingEncoder) "redis_failure"
    (Iface.obj "hello set faiilure") 2000 100 (failingAdapter)
    "Encoder failed to encode" (by decide) rfl rfl).1.2

/-! ## C16 -/

/-- C16: `ConfigureAdapter` panics exactly when the kind is "redis" and either `params` is not
a `*redis.Options` or the connection probe fails (an error, or a reply other than "PONG");
for every other kind, whatever `params`, it returns `nil` and leaves the store, its adapter
field included, as it was; for "redis" with options whose probe answers "PONG" it binds the
adapter and returns the store. It never waits for the mutex. -/
theorem ConfigureAdapter_panics_iff {O : Type} (dial : Dialer O R) (adapter : String)
    (params : Option O) (encoder : String → Iface P → Except String String)
    (decoder : String → String → Except String (Iface P)) (s : Store P R) :
    ((Store.ConfigureAdapter dial adapter params encoder decoder s).isPanicked = true ↔
      adapter = "redis" ∧
        (params = none ∨
          ∃ o, params = some o ∧ ((dial.Ping o).2.isSome = true ∨ (dial.Ping o).1 ≠ "PONG"))) ∧
    (adapter ≠ "redis" →
      Store.ConfigureAdapter dial adapter params encoder decoder s = .ret false s) ∧
    (∀ o, adapter = "redis" → params = some o → dial.Ping o = ("PONG", none) →
      Store.ConfigureAdapter dial adapter params encoder decoder s = .ret true
        { s with redis := some { client := (dial.NewClient o).1, conn := (dial.NewClient o).2,
                                 onDecode := decoder, onEncode := encoder } }) ∧
    (Store.ConfigureAdapter dial adapter params encoder decoder s).isBlocked = false := by
  by_cases hkind : adapter = "redis"
  · cases params with
    | none => simp [Store.ConfigureAdapter, hkind, Outcome.isPanicked, Outcome.isBlocked]
    | some o =>
      cases hp : dial.Ping o with
      | mk pong err =>
        cases err with
        | some e =>
          simp [Store.ConfigureAdapter, hkind, SetupRedis, hp, Outcome.isPanicked,
            Outcome.isBlocked]
        | none =>
          by_cases hpong : pong = "PONG"
          · simp [Store.ConfigureAdapter, hkind, SetupRedis, hp, hpong, Outcome.isPanicked,
              Outcome.isBlocked]
          · simp [Store.ConfigureAdapter, hkind, SetupRedis, hp, hpong, Outcome.isPanicked,
              Outcome.isBlocked]
  · simp [Store.ConfigureAdapter, hkind, Outcome.isPanicked, Outcome.isBlocked]

/-- Witness of C16: the calls of `TestConfigureWithWrongAdapterName` ("postgres", valid
options), of `TestConfigureWithWrongRedisParams` ("redis", a value that is no options) and of
`TestPanicSetupRedis` ("redis", unreachable server). -/
theorem ConfigureAdapter_panics_iff_witness :
    Store.ConfigureAdapter upDialer "postgres" (some ()) stringEncoder stringDecoder memStore
      = .ret false memStore ∧
    (Store.ConfigureAdapter upDialer "redis" (none : Option Unit) stringEncoder stringDecoder
      memStore).isPanicked = true ∧
    (Store.ConfigureAdapter downDialer "redis" (some ()) stringEncoder stringDecoder
      memStore).isPanicked = true :=
  ⟨(ConfigureAdapter_panics_iff upDialer "postgres" (some ()) stringEncoder stringDecoder
      memStore).2.1 (by decide),
   (ConfigureAdapter_panics_iff upDialer "redis" none stringEncoder stringDecoder
      memStore).1.2 ⟨rfl, Or.inl rfl⟩,
   (ConfigureAdapter_panics_iff downDialer "redis" (some ()) stringEncoder stringDecoder
      memStore).1.2 ⟨rfl, Or.inr ⟨(), rfl, Or.inl rfl⟩⟩⟩

/-! ## C17 -/

theorem Janitor_steps_not_running (j : Janitor P R) (evs : List Event)
    (h : j.loop ≠ Loop.running) : j.steps evs = j := by
  induction evs with
  | nil => rfl
  | cons ev evs ih =>
    have hstep : j.step ev = j := by
      unfold Janitor.step
      cases hl : j.loop with
      | running => exact absurd hl h
      | returned => rfl
      | blocked => rfl
      | crashed => rfl
    show (j.step ev).steps evs = j
    rw [hstep]
    exact ih

/-- C17: in the step relation of the janitor over tick and stop events, a tick processed by a
running loop performs `DeleteExpired` on the bound store (and the loop keeps running when the
mutex is free); once the event sent by `StopCleaner` has been processed the loop has
returned with the store untouched, and from then on no sequence of ticks or further events
changes the store: an entry put after the stop is still in the entry map, with its value and
expiry, whatever ticks follow. -/
theorem janitor_ticks_until_stopped (j : Janitor P R) (hrun : j.loop = Loop.running) :
    (∀ now, (j.step (Event.tick now)).store = (Store.DeleteExpired now j.store).state) ∧
    (∀ now, j.store.mutex = RWMutex.free → (j.step (Event.tick now)).loop = Loop.running) ∧
    (j.step Store.StopCleaner).loop = Loop.returned ∧
    (j.step Store.StopCleaner).store = j.store ∧
    (∀ evs, (j.step Store.StopCleaner).steps evs = j.step Store.StopCleaner) ∧
    (∀ key value ttl t0 evs, j.store.mutex = RWMutex.free →
      (({ j.step Store.StopCleaner with
            store := (Store.Put key value ttl t0 (j.step Store.StopCleaner).store).state } :
          Janitor P R).steps evs).store.cache.lookup key
        = some ⟨j.store.getUnix t0 ttl, value⟩) := by
  have hstop : j.step Store.StopCleaner = { j with loop := Loop.returned } := by
    simp [Janitor.step, hrun, Store.Run, Store.StopCleaner]
  refine ⟨fun now => ?_, fun now hm => ?_, ?_, ?_, fun evs => ?_,
    fun key value ttl t0 evs hm => ?_⟩
  · simp only [Janitor.step, hrun, Store.Run]
    cases Store.DeleteExpired now j.store <;> rfl
  · simp only [Janitor.step, hrun, Store.Run, DeleteExpired_free j.store now hm]
  · rw [hstop]
  · rw [hstop]
  · exact Janitor_steps_not_running _ evs (by rw [hstop]; simp)
  · rw [Janitor_steps_not_running _ evs (by rw [hstop]; simp), hstop]
    show (Store.Put key value ttl t0 j.store).state.cache.lookup key = _
    rw [(Put_state j.store key value ttl t0 hm).2.1]
    exact AList.lookup_insert _

/-- Witness of C17: the janitor of `TestCacheCleanupAndStop` (interval 200) over the twenty
expired entries: a tick at 300 empties the map; after the stop, an entry put at 400 with the
default TTL -2000 outlives the ticks at 600 and 800. -/
theorem janitor_ticks_until_stopped_witness :
    ((StartCleaner preExpiredStore 200).step (Event.tick 300)).store
      = (Store.DeleteExpired 300 preExpiredStore).state ∧
    ((StartCleaner preExpiredStore 200).step Store.StopCleaner).loop = Loop.returned ∧
    (({ (StartCleaner preExpiredStore 200).step Store.StopCleaner with
          store := (Store.Put "key_0" (Iface.obj "key_0") DefaultExpiry 400
            ((StartCleaner preExpiredStore 200).step Store.StopCleaner).store).state } :
        Janitor String (List (String × String))).steps
          [Event.tick 600, Event.tick 800]).store.cache.lookup "key_0"
      = some ⟨preExpiredStore.getUnix 400 DefaultExpiry, Iface.obj "key_0"⟩ :=
  ⟨(janitor_ticks_until_stopped (StartCleaner preExpiredStore 200) rfl).1 300,
   (janitor_ticks_until_stopped (StartCleaner preExpiredStore 200) rfl).2.2.1,
   (janitor_ticks_until_stopped (StartCleaner preExpiredStore 200) rfl).2.2.2.2.2
     "key_0" (Iface.obj "key_0") DefaultExpiry 400 [Event.tick 600, Event.tick 800]
     (by decide)⟩

/-! ## C18 -/

/-- C18, the code at the failing input: on `memStoreA`, whose mutex is free and which holds
"a", `Set("a", ..)` returns false with one read lock still held, after which `Put` and
`DeleteExpired` on the same store wait forever for the exclusive lock; `Set` on the absent key
"b" returns true with the mutex free. -/
theorem Set_false_returns_with_read_lock_held :
    memStoreA.mutex = RWMutex.free ∧
    (Store.Set "a" (Iface.obj "y") 0 105 memStoreA).value? = some false ∧
    (Store.Set "a" (Iface.obj "y") 0 105 memStoreA).state.mutex = ⟨1, false⟩ ∧
    (Store.Put "a" (Iface.obj "z") 0 106
      (Store.Set "a" (Iface.obj "y") 0 105 memStoreA).state).isBlocked = true ∧
    (Store.DeleteExpired 106
      (Store.Set "a" (Iface.obj "y") 0 105 memStoreA).state).isBlocked = true ∧
    (Store.Set "b" (Iface.obj "y") 0 105 memStoreA).value? = some true ∧
    (Store.Set "b" (Iface.obj "y") 0 105 memStoreA).state.mutex = RWMutex.free := by
  decide

/-! ## C19 -/

theorem hasExpired_mono (now t e : Int) (h : hasExpired now e = true) (ht : now ≤ t) :
    hasExpired t e = true := by
  unfold hasExpired at h ⊢
  by_cases hi : e = ExpiryInfinity
  · simp [hi] at h
  · rw [if_neg hi] at h ⊢
    simp only [decide_eq_true_eq] at h ⊢
    omega

/-- C19: for a key whose in-memory entry is expired but still in the entry map (no writer
holding the mutex), `Set(key, value, ttl)` returns false and stores nothing (the entry map is
the same map, the adapter is not consulted), the `Get(key)` that follows, at the same or a
later clock reading, reports not found, and a `Get(key)` issued instead of the `Set` would
have reported not found as well. -/
theorem Set_on_expired_entry_fails (s : Store P R) (key : String) (value : Iface P)
    (ttl now t : Int) (v : Value P) (hw : s.mutex.writer = false)
    (hk : s.cache.lookup key = some v) (he : hasExpired now v.expiry = true) (ht : now ≤ t) :
    (Store.Set key value ttl now s).value? = some false ∧
    (Store.Set key value ttl now s).state.cache = s.cache ∧
    (Store.Set key value ttl now s).state.redis = s.redis ∧
    (Store.Get key t (Store.Set key value ttl now s).state).value? = some (Iface.nil, false) ∧
    (Store.Get key now s).value? = some (Iface.nil, false) := by
  rw [Set_present s key value ttl now v hw hk]
  refine ⟨rfl, rfl, rfl, ?_, ?_⟩
  · exact congrArg Outcome.value?
      (Get_expired ({ s with mutex := { s.mutex with readers := s.mutex.readers + 1 } } :
        Store P R) key t v hw hk (hasExpired_mono now t _ he ht))
  · rw [Get_expired s key now v hw hk he]
    rfl

/-- Witness of C19: `Set("key_1", "y")` on the store of `TestGetExpired`, whose entry "key_1"
expired at -1900, then `Get("key_1")`. -/
theorem Set_on_expired_entry_fails_witness :
    (Store.Set "key_1" (Iface.obj "y") 0 100 expiredStore).value? = some false ∧
    (Store.Set "key_1" (Iface.obj "y") 0 100 expiredStore).state.cache = expiredStore.cache ∧
    (Store.Set "key_1" (Iface.obj "y") 0 100 expiredStore).state.redis = expiredStore.redis ∧
    (Store.Get "key_1" 101 (Store.Set "key_1" (Iface.obj "y") 0 100 expiredStore).state).value?
      = some (Iface.nil, false) ∧
    (Store.Get "key_1" 100 expiredStore).value? = some (Iface.nil, false) :=
  Set_on_expired_entry_fails expiredStore "key_1" (Iface.obj "y") 0 100 101
    ⟨-1900, Iface.obj "x"⟩ (by decide) (by decide) (by decide) (by decide)

/-! ## C20 -/

/-- C20: with `(conn1, w, err)` the reply of the client lookup, `GetFromRedis` returns
`(nil, false)` when `err` is `redis.Nil` and only then; for every other reply, a failed lookup
with another error included, it hands the returned string `w` to the decoder, returns
`(decoded value, true)` when the decoder accepts and panics with the decoder's error
otherwise. -/
theorem GetFromRedis_by_reply (redix : RedisAdapter P R) (key : String) (conn1 : R)
    (w : String) (err : Option RedisErr)
    (hc : redix.client.Get redix.conn key = (conn1, w, err)) :
    (err = some RedisErr.Nil →
      redix.GetFromRedis key = .ok ((Iface.nil, false), { redix with conn := conn1 })) ∧
    (∀ rx, redix.GetFromRedis key = .ok ((Iface.nil, false), rx) → err = some RedisErr.Nil) ∧
    (err ≠ some RedisErr.Nil → ∀ o, redix.onDecode key w = .ok o →
      redix.GetFromRedis key = .ok ((o, true), { redix with conn := conn1 })) ∧
    (err ≠ some RedisErr.Nil → ∀ e, redix.onDecode key w = .error e →
      redix.GetFromRedis key = .error e) := by
  refine ⟨fun h => ?_, fun rx h => ?_, fun hn o hd => ?_, fun hn e hd => ?_⟩
  · subst h
    exact GetFromRedis_nil redix key conn1 w hc
  · by_contra hn
    cases hd : redix.onDecode key w with
    | ok o =>
      rw [GetFromRedis_decoded redix key conn1 w err o hc hn hd] at h
      cases h
    | error e =>
      rw [GetFromRedis_decode_error redix key conn1 w err e hc hn hd] at h
      cases h
  · exact GetFromRedis_decoded redix key conn1 w err o hc hn hd
  · exact GetFromRedis_decode_error redix key conn1 w err e hc hn hd

/-- Witness of C20: a lookup that fails with an error other than `redis.Nil` and yields the
empty string, which the decoder of the tests turns into the value "". -/
theorem GetFromRedis_by_reply_witness :
    (testAdapter brokenClient [] stringDecoder).GetFromRedis "some_key"
      = .ok ((Iface.obj "", true),
          { testAdapter brokenClient [] stringDecoder with conn := [] }) :=
  (GetFromRedis_by_reply (testAdapter brokenClient [] stringDecoder) "some_key" [] ""
    (some RedisErr.other) rfl).2.2.1 (by decide) (Iface.obj "") rfl

end Bufrex
